import Mathlib

/-!
# Tetris rules engine: embedding of `src/tetris.cpp`

The definitions follow `src/tetris.cpp` function by function.  The header
`tetris.hpp` (class layouts, the `CollisionResult` enumerators, the SRS offset
tables) is not among the sources; what the code needs from it is either taken
as a parameter or modelled from the specification and marked so.

Conventions.
* Coordinates are mathematical integers (the specification says "signed
  integers"); no wrap-around of the machine type is modelled.
* A C++ method that mutates `*this` and returns `bool` becomes a function
  returning the pair `(result, new state)`.
* Neither `Playfield::operator[]` nor the `operator[]` of the row type
  `std::array<TetriminoType, 10>` checks its index.  A read with an index pair
  outside `0..39 × 0..9` yields whatever the storage next to the cells holds;
  the model carries that unspecified content as the field `Playfield.beyond`,
  so that a theorem quantified over every `Playfield` holds whatever such a
  read returns.
* `process_srs` takes its `Playfield` by value.  The copy holds the same cells
  in another place, so what an unchecked read outside the array finds next to
  it is not what lies next to the original: the rotations take that content as
  the parameter `storage` and hand `process_srs` the copy `playfield.copy
  storage`.
* An exception thrown by the code (`std::invalid_argument` of the kick-table
  lookup) is the result `none`.
* The scan of `Game::clear_rows`, whose loop variable is stepped back up after
  a shift, takes a bound on the number of passes of its loop and gives `none`
  when the bound is reached; that it returns is proved by naming a bound that
  is enough.
* `std::shuffle` and the random engine of the `Bag` are a parameter: a function
  from the engine state and a sequence to the rearranged sequence and the next
  state.
* The drop interval is computed on rationals; the rounding of `pow` to a
  floating-point value is not modelled.
-/

namespace tetris

/-! ## Point -/

/-- Modelled from the spec: `Point(row, col)`, a pair of signed integers (the
class is declared in `tetris.hpp`). -/
structure Point where
  row : Int
  col : Int
deriving DecidableEq, Repr

/-- Modelled from the spec: the value of a default-constructed `Point`, as in
`Point offset;` of the rotation methods (the constructor is declared in
`tetris.hpp`); the spec names the offset of a kick-free rotation `(0,0)`. -/
def Point.zero : Point := ⟨0, 0⟩

/-- Embedding of `Point::operator+` (and `operator+=`). -/
def Point.add (a b : Point) : Point := ⟨a.row + b.row, a.col + b.col⟩

/-- Embedding of `Point::operator-` (and `operator-=`). -/
def Point.sub (a b : Point) : Point := ⟨a.row - b.row, a.col - b.col⟩

instance : Add Point := ⟨Point.add⟩
instance : Sub Point := ⟨Point.sub⟩

/-- Embedding of `std::array<Point, 4>`: the four cells of a piece, in index order. -/
structure Point4 where
  p0 : Point
  p1 : Point
  p2 : Point
  p3 : Point
deriving DecidableEq, Repr

/-- The four elements in iteration order of a range-based `for`. -/
def Point4.toList (ps : Point4) : List Point := [ps.p0, ps.p1, ps.p2, ps.p3]

/-- Apply `g` to every element (a range-based `for (Point& p : ...)` that
rewrites each element independently). -/
def Point4.map (g : Point → Point) (ps : Point4) : Point4 :=
  ⟨g ps.p0, g ps.p1, g ps.p2, g ps.p3⟩

/-! ## Enumerations -/

/-- Embedding of `TetriminoType`: the state of a grid cell and the identity of a piece. -/
inductive TetriminoType where
  | NONE | O | I | T | L | J | S | Z
deriving DecidableEq, Repr

/-- Embedding of `TetriminoFacing`. -/
inductive TetriminoFacing where
  | NORTH | EAST | SOUTH | WEST
deriving DecidableEq, Repr

/-- Modelled from the spec: `CollisionResult::NONE` (declared in `tetris.hpp`):
"a zero result means no collision". -/
def CollisionResult.NONE : Nat := 0

/-- Modelled from the spec: `CollisionResult::FLOOR` (declared in
`tetris.hpp`), one bit of the mask. -/
def CollisionResult.FLOOR : Nat := 1

/-- Modelled from the spec: `CollisionResult::WALL` (declared in `tetris.hpp`),
one bit of the mask. -/
def CollisionResult.WALL : Nat := 2

/-- Modelled from the spec: `CollisionResult::MINO` (declared in `tetris.hpp`),
one bit of the mask. -/
def CollisionResult.MINO : Nat := 4

/-! ## Playfield -/

/-- The 40 × 10 grid of a `Playfield`, together with `beyond`: the value an
unchecked `grid[row][col]` read yields for an index pair outside the array. -/
structure Playfield where
  grid : Fin 40 → Fin 10 → TetriminoType
  beyond : Int → Int → TetriminoType

/-- The pair `(row, col)` indexes a cell of the grid. -/
def in_grid (row col : Int) : Prop := 0 ≤ row ∧ row < 40 ∧ 0 ≤ col ∧ col < 10

instance (row col : Int) : Decidable (in_grid row col) := by
  unfold in_grid; infer_instance

/-- Embedding of `playfield[row][col]` (`Playfield::operator[](short)` followed by the
unchecked `std::array::operator[]`). -/
def Playfield.cell (playfield : Playfield) (row col : Int) : TetriminoType :=
  if h : in_grid row col then
    playfield.grid ⟨row.toNat, by unfold in_grid at h; omega⟩
      ⟨col.toNat, by unfold in_grid at h; omega⟩
  else
    playfield.beyond row col

/-- A playfield whose 400 cells are all `NONE`. -/
def Playfield.empty (beyond : Int → Int → TetriminoType) : Playfield :=
  ⟨fun _ _ => TetriminoType.NONE, beyond⟩

/-! ## Collision detection -/

/-- Embedding of `tetris::check_collision(const Point&, const Playfield&)`. -/
def check_collision (point : Point) (playfield : Playfield) : Nat :=
  let result := CollisionResult.NONE
  let result := if point.row > 39 then result ||| CollisionResult.FLOOR else result
  let result :=
    if point.col < 0 ∨ point.col > 9 then result ||| CollisionResult.WALL else result
  let result :=
    if playfield.cell point.row point.col ≠ TetriminoType.NONE then
      result ||| CollisionResult.MINO
    else result
  result

/-- Embedding of `tetris::check_collision(const std::array<Point, 4>&, const Playfield&)`. -/
def check_collision_points (points : Point4) (playfield : Playfield) : Nat :=
  points.toList.foldl (fun result p => result ||| check_collision p playfield)
    CollisionResult.NONE

/-! ## Tetrimino -/

/-- Embedding of `Tetrimino`: type, facing, pivot and the four occupied cells. -/
structure Tetrimino where
  type : TetriminoType
  facing : TetriminoFacing
  pivot : Point
  points : Point4
deriving DecidableEq, Repr

/-- Embedding of `Tetrimino::Tetrimino(TetriminoType)`.  The `switch` has no case for `NONE`:
pivot and points then keep their default-constructed value. -/
def Tetrimino.spawn (type_init : TetriminoType) : Tetrimino :=
  let north := TetriminoFacing.NORTH
  match type_init with
  | .O => ⟨.O, north, ⟨19, 4⟩, ⟨⟨18, 4⟩, ⟨18, 5⟩, ⟨19, 4⟩, ⟨19, 5⟩⟩⟩
  | .I => ⟨.I, north, ⟨19, 4⟩, ⟨⟨19, 3⟩, ⟨19, 4⟩, ⟨19, 5⟩, ⟨19, 6⟩⟩⟩
  | .T => ⟨.T, north, ⟨19, 4⟩, ⟨⟨18, 4⟩, ⟨19, 3⟩, ⟨19, 4⟩, ⟨19, 5⟩⟩⟩
  | .L => ⟨.L, north, ⟨19, 4⟩, ⟨⟨18, 5⟩, ⟨19, 3⟩, ⟨19, 4⟩, ⟨19, 5⟩⟩⟩
  | .J => ⟨.J, north, ⟨19, 4⟩, ⟨⟨18, 3⟩, ⟨19, 3⟩, ⟨19, 4⟩, ⟨19, 5⟩⟩⟩
  | .S => ⟨.S, north, ⟨19, 4⟩, ⟨⟨18, 4⟩, ⟨18, 5⟩, ⟨19, 3⟩, ⟨19, 4⟩⟩⟩
  | .Z => ⟨.Z, north, ⟨19, 4⟩, ⟨⟨18, 3⟩, ⟨18, 4⟩, ⟨19, 4⟩, ⟨19, 5⟩⟩⟩
  | .NONE => ⟨.NONE, north, Point.zero, ⟨Point.zero, Point.zero, Point.zero, Point.zero⟩⟩

/-- Embedding of `Tetrimino::translate`: the result and the Tetrimino after the call.  The
loop shifts the points in index order and returns `false`, before anything is
stored, at the first one that collides. -/
def Tetrimino.translate (t : Tetrimino) (delta : Point) (playfield : Playfield) :
    Bool × Tetrimino :=
  let new_pivot := t.pivot + delta
  let q0 := t.points.p0 + delta
  if check_collision q0 playfield ≠ CollisionResult.NONE then (false, t) else
  let q1 := t.points.p1 + delta
  if check_collision q1 playfield ≠ CollisionResult.NONE then (false, t) else
  let q2 := t.points.p2 + delta
  if check_collision q2 playfield ≠ CollisionResult.NONE then (false, t) else
  let q3 := t.points.p3 + delta
  if check_collision q3 playfield ≠ CollisionResult.NONE then (false, t) else
  (true, { t with pivot := new_pivot, points := ⟨q0, q1, q2, q3⟩ })

/-! ## Super Rotation System -/

/-- Modelled from the spec: the kick tables `I_SRS_OFFSET_VALUES` and
`STANDARD_SRS_OFFSET_VALUES` (declared in `tetris.hpp`), one `Point` for every
facing and index; their entries are left open. -/
structure SrsTables where
  I_SRS_OFFSET_VALUES : TetriminoFacing → Nat → Point
  STANDARD_SRS_OFFSET_VALUES : TetriminoFacing → Nat → Point

/-- Embedding of `tetris::get_srs_offset_value`; `none` stands for the
`std::invalid_argument` thrown by the `default` case. -/
def get_srs_offset_value (tables : SrsTables) (type : TetriminoType)
    (facing : TetriminoFacing) (point_index : Nat) : Option Point :=
  match type with
  | .I => some (tables.I_SRS_OFFSET_VALUES facing point_index)
  | .T | .L | .J | .S | .Z => some (tables.STANDARD_SRS_OFFSET_VALUES facing point_index)
  | _ => none

/-- Embedding of `tetris::calculate_srs_offset`. -/
def calculate_srs_offset (tables : SrsTables) (point_index : Nat) (type : TetriminoType)
    (facing_before facing_after : TetriminoFacing) : Option Point :=
  match get_srs_offset_value tables type facing_before point_index,
        get_srs_offset_value tables type facing_after point_index with
  | some before, some after => some (before - after)
  | _, _ => none

/-- The `for (short i=0; i<4; i++)` loop of `process_srs` over the indices still
to try; the second argument is the current content of the out-parameter
`offset`. -/
def process_srs_loop (tables : SrsTables) (type : TetriminoType) (points : Point4)
    (playfield : Playfield) (facing_before facing_after : TetriminoFacing) :
    List Nat → Point → Option (Bool × Point)
  | [], offset => some (false, offset)
  | i :: rest, _ =>
    match calculate_srs_offset tables i type facing_before facing_after with
    | none => none
    | some offset =>
      let offset_points := points.map (fun p => p + offset)
      if check_collision_points offset_points playfield = 0 then some (true, offset)
      else process_srs_loop tables type points playfield facing_before facing_after rest offset

/-- Embedding of `tetris::process_srs`: the returned `bool` and the content of `offset` after
the call; `none` when the table lookup throws.  The log lines are omitted. -/
def process_srs (tables : SrsTables) (type : TetriminoType) (points : Point4)
    (playfield : Playfield) (facing_before facing_after : TetriminoFacing)
    (offset : Point) : Option (Bool × Point) :=
  if check_collision_points points playfield = 0 then some (true, offset)
  else
    process_srs_loop tables type points playfield facing_before facing_after
      [0, 1, 2, 3] offset

/-- The facing `rotate_ccw` moves to. -/
def ccw_facing : TetriminoFacing → TetriminoFacing
  | .NORTH => .WEST
  | .EAST => .NORTH
  | .SOUTH => .EAST
  | .WEST => .SOUTH

/-- The facing `rotate_cw` moves to. -/
def cw_facing : TetriminoFacing → TetriminoFacing
  | .NORTH => .EAST
  | .EAST => .SOUTH
  | .SOUTH => .WEST
  | .WEST => .NORTH

/-- The candidate of `rotate_ccw`: every point turned about the pivot, then the
shift of the I piece. -/
def ccw_candidate (t : Tetrimino) : Point4 :=
  let new_points := t.points.map (fun p =>
    let p := p - t.pivot
    let p := Point.mk (-p.col) p.row
    p + t.pivot)
  if t.type = TetriminoType.I then new_points.map (fun p => p + Point.mk 1 0) else new_points

/-- The candidate of `rotate_cw`: every point turned about the pivot, then the
shift of the I piece. -/
def cw_candidate (t : Tetrimino) : Point4 :=
  let new_points := t.points.map (fun p =>
    let p := p - t.pivot
    let p := Point.mk p.col (-p.row)
    p + t.pivot)
  if t.type = TetriminoType.I then new_points.map (fun p => p + Point.mk 0 1) else new_points

/-- A by-value copy of a Playfield, as the parameter `const Playfield playfield`
of `process_srs` receives it: the same 400 cells in another place, so that an
unchecked read outside the array sees `storage`, what lies next to the copy,
and not what lies next to the original. -/
def Playfield.copy (playfield : Playfield) (storage : Int → Int → TetriminoType) :
    Playfield :=
  ⟨playfield.grid, storage⟩

/-- The part common to both rotations after the candidate is known: kick
resolution on the by-value copy of the playfield that the call of `process_srs`
makes (`storage` is what lies next to that copy), then the update of the
Tetrimino when it succeeds. -/
def rotate_commit (tables : SrsTables) (storage : Int → Int → TetriminoType) (t : Tetrimino)
    (new_facing : TetriminoFacing) (new_points : Point4) (playfield : Playfield) :
    Option (Bool × Tetrimino) :=
  match process_srs tables t.type new_points (playfield.copy storage) t.facing new_facing
      Point.zero with
  | none => none
  | some (clear, offset) =>
    if clear then
      some (true, { t with
        points := new_points.map (fun p => p + offset),
        facing := new_facing,
        pivot := t.pivot + offset })
    else some (false, t)

/-- Embedding of `Tetrimino::rotate_ccw`; `none` when `process_srs` throws.
`storage` is what lies next to the copy of the playfield handed to
`process_srs`. -/
def Tetrimino.rotate_ccw (tables : SrsTables) (storage : Int → Int → TetriminoType)
    (t : Tetrimino) (playfield : Playfield) : Option (Bool × Tetrimino) :=
  if t.type = TetriminoType.O then some (true, t)
  else rotate_commit tables storage t (ccw_facing t.facing) (ccw_candidate t) playfield

/-- Embedding of `Tetrimino::rotate_cw`; `none` when `process_srs` throws.
`storage` is what lies next to the copy of the playfield handed to
`process_srs`. -/
def Tetrimino.rotate_cw (tables : SrsTables) (storage : Int → Int → TetriminoType)
    (t : Tetrimino) (playfield : Playfield) : Option (Bool × Tetrimino) :=
  if t.type = TetriminoType.O then some (true, t)
  else rotate_commit tables storage t (cw_facing t.facing) (cw_candidate t) playfield

/-! ## Landing -/

/-- Embedding of `Tetrimino::is_landed`. -/
def Tetrimino.is_landed (t : Tetrimino) (playfield : Playfield) : Bool :=
  t.points.toList.any (fun p => decide (check_collision (p + Point.mk 1 0) playfield ≠ 0))

/-- The body of the inner loop of the scan in `get_landing`, for one board row
and one point of the piece. -/
def landing_step (playfield : Playfield) (row : Int) (distance_to_landing : Int)
    (p : Point) : Int :=
  if playfield.cell row p.col ≠ TetriminoType.NONE
      ∧ row - p.row - 1 < distance_to_landing ∧ row - p.row - 1 ≥ 0 then
    row - p.row - 1
  else distance_to_landing

/-- The first loop nest of `get_landing`: rows `0..39`, and the four points for
each row. -/
def landing_scan (playfield : Playfield) (points : Point4) : Int :=
  (List.range 40).foldl
    (fun d row => points.toList.foldl (landing_step playfield (row : Int)) d) 41

/-- The body of the second loop of `get_landing`: the distance to the floor. -/
def floor_step (distance_to_landing : Int) (p : Point) : Int :=
  if 39 - p.row < distance_to_landing then 39 - p.row else distance_to_landing

/-- The value of `distance_to_landing` after both loops of `get_landing`. -/
def landing_distance (t : Tetrimino) (playfield : Playfield) : Int :=
  t.points.toList.foldl floor_step (landing_scan playfield t.points)

/-- Embedding of `Tetrimino::get_landing`: the copy after `landing.translate(...)`, whose
result the code ignores. -/
def Tetrimino.get_landing (t : Tetrimino) (playfield : Playfield) : Tetrimino :=
  let distance_to_landing := landing_distance t playfield
  (t.translate (Point.mk distance_to_landing 0) playfield).2

/-- Embedding of `Tetrimino::hard_drop`. -/
def Tetrimino.hard_drop (t : Tetrimino) (playfield : Playfield) : Bool × Tetrimino :=
  let fall_distance := (t.get_landing playfield).pivot.row - t.pivot.row
  t.translate (Point.mk fall_distance 0) playfield

/-! ## Bag -/

/-- Modelled from the spec: `std::shuffle` driven by the Bag's
`std::default_random_engine` (standard library): from the state of the engine
and a sequence it gives the rearranged sequence and the next state of the
engine.  Which rearrangement it gives is left open. -/
abbrev Shuffle := Nat → List Tetrimino → List Tetrimino × Nat

/-- The members of `Bag`: the queue, front first, and the state of the random
engine. -/
structure Bag where
  tetrimino_queue : List Tetrimino
  random_generator : Nat

/-- The array `tetriminos` of `Bag::extend_queue` before it is shuffled. -/
def seven_tetriminos : List Tetrimino :=
  [Tetrimino.spawn .O, Tetrimino.spawn .I, Tetrimino.spawn .T, Tetrimino.spawn .L,
   Tetrimino.spawn .J, Tetrimino.spawn .S, Tetrimino.spawn .Z]

/-- Embedding of `Bag::extend_queue`. -/
def Bag.extend_queue (shuffle : Shuffle) (bag : Bag) : Bag :=
  let tetriminos := shuffle bag.random_generator seven_tetriminos
  ⟨bag.tetrimino_queue ++ tetriminos.1, tetriminos.2⟩

/-- Embedding of `Bag::Bag`; `seed` is the value drawn from `std::random_device`. -/
def Bag.new (shuffle : Shuffle) (seed : Nat) : Bag :=
  Bag.extend_queue shuffle ⟨[], seed⟩

/-- Embedding of `Bag::pop`: the Tetrimino returned and the Bag after the call;
`none` stands for `front()` of an empty queue. -/
def Bag.pop (shuffle : Shuffle) (bag : Bag) : Option (Tetrimino × Bag) :=
  match bag.tetrimino_queue with
  | [] => none
  | next :: rest =>
    let popped : Bag := ⟨rest, bag.random_generator⟩
    if rest.length < 7 then some (next, popped.extend_queue shuffle)
    else some (next, popped)

/-! ## Game -/

/-- Embedding of `Command`. -/
inductive Command where
  | DO_NOTHING | SHIFT_LEFT | SHIFT_RIGHT | ROTATE_CCW | ROTATE_CW | SOFT_DROP | HARD_DROP
deriving DecidableEq, Repr

/-- The members of `Game` that `tetris.cpp` uses. -/
structure Game where
  playfield : Playfield
  active_tetrimino : Tetrimino
  bag : Bag
  level : Int

/-- The assignment `playfield[row][col] = value` through the unchecked
`operator[]`: a write with an index pair outside the grid lands in the storage
next to the cells. -/
def Playfield.set (playfield : Playfield) (row col : Int) (value : TetriminoType) :
    Playfield :=
  if in_grid row col then
    { playfield with
      grid := fun r c => if (r : Int) = row ∧ (c : Int) = col then value else playfield.grid r c }
  else
    { playfield with
      beyond := fun r c => if r = row ∧ c = col then value else playfield.beyond r c }

/-- Embedding of `Game::try_command`; `none` when a rotation throws.  `storage`
is what lies next to the copy of the playfield that a rotation hands to
`process_srs`. -/
def Game.try_command (tables : SrsTables) (storage : Int → Int → TetriminoType) (game : Game)
    (command : Command) :
    Option (Bool × Game) :=
  match command with
  | .DO_NOTHING => some (true, game)
  | .SHIFT_LEFT =>
    some (true, { game with
      active_tetrimino := (game.active_tetrimino.translate ⟨0, -1⟩ game.playfield).2 })
  | .SHIFT_RIGHT =>
    some (true, { game with
      active_tetrimino := (game.active_tetrimino.translate ⟨0, 1⟩ game.playfield).2 })
  | .ROTATE_CCW =>
    match game.active_tetrimino.rotate_ccw tables storage game.playfield with
    | none => none
    | some r => some (true, { game with active_tetrimino := r.2 })
  | .ROTATE_CW =>
    match game.active_tetrimino.rotate_cw tables storage game.playfield with
    | none => none
    | some r => some (true, { game with active_tetrimino := r.2 })
  | .SOFT_DROP =>
    some (true, { game with
      active_tetrimino := (game.active_tetrimino.translate ⟨1, 0⟩ game.playfield).2 })
  | .HARD_DROP =>
    some (true, { game with
      active_tetrimino := (game.active_tetrimino.hard_drop game.playfield).2 })

/-- Embedding of `Game::lock_active_tetrimino`. -/
def Game.lock_active_tetrimino (game : Game) : Game :=
  { game with
    playfield := game.active_tetrimino.points.toList.foldl
      (fun playfield p => playfield.set p.row p.col game.active_tetrimino.type)
      game.playfield }

/-- The test `row_full` of `clear_rows`: no column `0..9` of the row holds
`NONE`. -/
def row_full (playfield : Playfield) (row : Int) : Bool :=
  (List.range 10).all (fun col => decide (playfield.cell row (col : Int) ≠ TetriminoType.NONE))

/-- The inner loop of the shift in `clear_rows`: for `colc` in `0..9`,
`playfield[rowc][colc] = playfield[rowc-1][colc]`. -/
def copy_row (playfield : Playfield) (rowc : Int) : Playfield :=
  (List.range 10).foldl
    (fun playfield colc => playfield.set rowc (colc : Int) (playfield.cell (rowc - 1) (colc : Int)))
    playfield

/-- The loop `for (int rowc=row; rowc>0; rowc--)` of `clear_rows`, started at
`rowc`. -/
def lower_rows : Nat → Playfield → Playfield
  | 0, playfield => playfield
  | rowc + 1, playfield => lower_rows rowc (copy_row playfield ((rowc + 1 : Nat) : Int))

/-- The loop `for (int row=39; row>0; row--)` of `clear_rows` from the state
`(row, playfield)`, run for at most `fuel` passes; `none` when that is not
enough.  After a shift `++row` and the `row--` of the loop cancel. -/
def clear_rows_loop : Nat → Nat → Playfield → Option Playfield
  | 0, _, _ => none
  | fuel + 1, row, playfield =>
    if row > 0 then
      if row_full playfield (row : Int) then
        clear_rows_loop fuel (row + 1 - 1) (lower_rows row playfield)
      else clear_rows_loop fuel (row - 1) playfield
    else some playfield

/-- Embedding of `Game::clear_rows`, with `fuel` passes of the outer loop
allowed. -/
def Game.clear_rows (fuel : Nat) (game : Game) : Option Game :=
  match clear_rows_loop fuel 39 game.playfield with
  | none => none
  | some playfield => some { game with playfield := playfield }

/-- Embedding of `Game::draw_new_tetrimino`; `none` when the Bag is empty. -/
def Game.draw_new_tetrimino (shuffle : Shuffle) (game : Game) : Option Game :=
  match game.bag.pop shuffle with
  | none => none
  | some (next, bag) => some { game with active_tetrimino := next, bag := bag }

/-- Embedding of `Game::is_game_over`: the first statement returns `false`. -/
def Game.is_game_over (_game : Game) : Bool := false

/-- Embedding of `Game::get_drop_interval`, in seconds, with the arithmetic of
`pow(0.8 - ((level-1) * 0.0007), level-1)` carried out on rationals (the value
before it is rounded to a `double` and to a `float`). -/
def Game.get_drop_interval (game : Game) : ℚ :=
  (0.8 - ((game.level - 1 : Int) : ℚ) * 0.0007) ^ (game.level - 1)

/-! ## Notions and concrete inputs used in the statements -/

/-- The content of a grid as an implementation that stores the 40 rows one after
the other presents it to an unchecked read: `grid[row][col]` is the element at
offset `10 * row + col` of the 400 cells (and `NONE` is taken past them). -/
def row_major (grid : Fin 40 → Fin 10 → TetriminoType) : Playfield :=
  ⟨grid, fun row col =>
    let offset := 10 * row + col
    if h : 0 ≤ offset ∧ offset < 400 then
      grid ⟨(offset / 10).toNat, by omega⟩ ⟨(offset % 10).toNat, by omega⟩
    else TetriminoType.NONE⟩

/-- A grid that is empty except for one `O` cell at `(row, col)`. -/
def single_mino (row : Fin 40) (col : Fin 10) : Fin 40 → Fin 10 → TetriminoType :=
  fun r c => if r = row ∧ c = col then TetriminoType.O else TetriminoType.NONE

/-- The table `get_srs_offset_value` reads for a piece type that has one: the I
table for `I`, the shared table otherwise. -/
def srs_table (tables : SrsTables) (type : TetriminoType) : TetriminoFacing → Nat → Point :=
  if type = TetriminoType.I then tables.I_SRS_OFFSET_VALUES
  else tables.STANDARD_SRS_OFFSET_VALUES

/-- The kick of index `i`: `value(facing_before, i) - value(facing_after, i)`. -/
def srs_kick (tables : SrsTables) (type : TetriminoType)
    (facing_before facing_after : TetriminoFacing) (i : Nat) : Point :=
  srs_table tables type facing_before i - srs_table tables type facing_after i

/-- The shape `c` shifted by `offset` has no collision on `f`. -/
def clear_at (c : Point4) (f : Playfield) (offset : Point) : Prop :=
  check_collision_points (c.map (fun p => p + offset)) f = 0

instance (c : Point4) (f : Playfield) (offset : Point) : Decidable (clear_at c f offset) := by
  unfold clear_at; infer_instance

/-- The piece types with a kick table. -/
def has_kick_table (type : TetriminoType) : Prop :=
  type = .I ∨ type = .T ∨ type = .L ∨ type = .J ∨ type = .S ∨ type = .Z

instance (type : TetriminoType) : Decidable (has_kick_table type) := by
  unfold has_kick_table; infer_instance

/-- A kick table for the concrete instances below (the theorems hold for every
table): index 0 is no shift, the others shift by one or two cells. -/
def sample_tables : SrsTables :=
  ⟨fun facing i =>
      match facing, i with
      | .NORTH, 1 => ⟨0, -1⟩ | .NORTH, 2 => ⟨0, 2⟩
      | .EAST, _ => ⟨0, 0⟩
      | .SOUTH, 1 => ⟨1, 1⟩ | .SOUTH, 2 => ⟨1, -2⟩
      | .WEST, 1 => ⟨1, 0⟩ | .WEST, 2 => ⟨1, 0⟩
      | _, _ => ⟨0, 0⟩,
   fun facing i =>
      match facing, i with
      | .EAST, 1 => ⟨0, 1⟩ | .EAST, 2 => ⟨1, 1⟩ | .EAST, 3 => ⟨-2, 0⟩
      | .WEST, 1 => ⟨0, -1⟩ | .WEST, 2 => ⟨1, -1⟩ | .WEST, 3 => ⟨-2, 0⟩
      | _, _ => ⟨0, 0⟩⟩

/-- The clockwise candidate as the specification words it: with
`(dr, dc) = p - pivot` the point `pivot + (dc, -dr)`, and one column more for
the I piece. -/
def spec_cw_point (t : Tetrimino) (p : Point) : Point :=
  let dr := p.row - t.pivot.row
  let dc := p.col - t.pivot.col
  if t.type = TetriminoType.I then ⟨t.pivot.row + dc, t.pivot.col + -dr + 1⟩
  else ⟨t.pivot.row + dc, t.pivot.col + -dr⟩

/-- The counter-clockwise candidate as the specification words it: with
`(dr, dc) = p - pivot` the point `pivot + (-dc, dr)`, and one row more for the
I piece. -/
def spec_ccw_point (t : Tetrimino) (p : Point) : Point :=
  let dr := p.row - t.pivot.row
  let dc := p.col - t.pivot.col
  if t.type = TetriminoType.I then ⟨t.pivot.row + -dc + 1, t.pivot.col + dr⟩
  else ⟨t.pivot.row + -dc, t.pivot.col + dr⟩

/-- The position of a facing in the cycle NORTH, EAST, SOUTH, WEST. -/
def facing_index : TetriminoFacing → Nat
  | .NORTH => 0
  | .EAST => 1
  | .SOUTH => 2
  | .WEST => 3

/-- The value `x` is what the scan of `get_landing` may store for board row `row`
and point `p`: the cell of the row in the column of `p` is occupied and lies
`x + 1 ≥ 1` rows under `p`. -/
def mino_candidate (f : Playfield) (row : Int) (p : Point) (x : Int) : Prop :=
  f.cell row p.col ≠ TetriminoType.NONE ∧ 0 ≤ row - p.row - 1 ∧ x = row - p.row - 1

/-- A grid whose 400 cells are all occupied. -/
def full_grid : Fin 40 → Fin 10 → TetriminoType := fun _ _ => TetriminoType.O

/-- The piece `t` moved `k` rows down has no collision on `f`. -/
def shift_free (t : Tetrimino) (f : Playfield) (k : Int) : Prop :=
  ∀ p ∈ t.points.toList, check_collision (p + ⟨k, 0⟩) f = CollisionResult.NONE

/-- The number of full rows among the rows `1..n`. -/
def full_count (f : Playfield) : Nat → Nat
  | 0 => 0
  | n + 1 => full_count f n + (if row_full f ((n + 1 : Nat) : Int) then 1 else 0)

/-- The number of full rows among the rows `0..n-1`. -/
def full_count_from_top (f : Playfield) : Nat → Nat
  | 0 => 0
  | n + 1 => full_count_from_top f n + (if row_full f (n : Int) then 1 else 0)

/-- A Bag with an empty queue, for the games of the concrete instances that do
not draw from it. -/
def idle_bag : Bag := ⟨[], 0⟩

/-- A grid with the rows 0 and 39 fully occupied and every other cell empty. -/
def top_and_bottom_full : Fin 40 → Fin 10 → TetriminoType :=
  fun r _ => if r.val = 0 ∨ r.val = 39 then TetriminoType.O else TetriminoType.NONE

/-- A grid with row 39 fully occupied, one occupied cell `(0, 0)` and every
other cell empty. -/
def bottom_full_top_mino : Fin 40 → Fin 10 → TetriminoType :=
  fun r c =>
    if r.val = 39 ∨ (r.val = 0 ∧ c.val = 0) then TetriminoType.O else TetriminoType.NONE

/-- The grid of the end-to-end scenario: empty except for the columns 0, 1, 2,
7, 8, 9 of row 39. -/
def scenario_grid : Fin 40 → Fin 10 → TetriminoType :=
  fun r c =>
    if r.val = 39 ∧ (c.val < 3 ∨ 6 < c.val) then TetriminoType.O else TetriminoType.NONE

/-- The Tetriminos returned by `n` calls of `Bag::pop` in a row, first call
first, and the Bag after them; `none` when one of the calls finds the queue
empty. -/
def Bag.pops (shuffle : Shuffle) : Nat → Bag → Option (List Tetrimino × Bag)
  | 0, bag => some ([], bag)
  | n + 1, bag =>
    match bag.pop shuffle with
    | none => none
    | some (next, bag) =>
      match Bag.pops shuffle n bag with
      | none => none
      | some (rest, bag) => some (next :: rest, bag)

/-- A shuffle for the concrete instances: it reverses the sequence and steps
the engine state by one. -/
def reversing_shuffle : Shuffle := fun g l => (l.reverse, g + 1)

/-- The drop interval as the specification words it, in seconds, on rationals:
`0.8 − (level−1)×0.007` raised to the power `level−1`. -/
def spec_drop_interval (level : Int) : ℚ :=
  (0.8 - ((level - 1 : Int) : ℚ) * 0.007) ^ (level - 1)

/-- A grid lookup that reports an index pair outside the 40 × 10 array (`none`)
instead of reading past it. -/
def Playfield.lookup (playfield : Playfield) (row col : Int) : Option TetriminoType :=
  if h : in_grid row col then
    some (playfield.grid ⟨row.toNat, by unfold in_grid at h; omega⟩
      ⟨col.toNat, by unfold in_grid at h; omega⟩)
  else none

/-- The statements of `tetris::check_collision(const Point&, const Playfield&)`
in their order, over the reporting lookup: `none` when the read
`playfield[point.row][point.col]` of its third test is outside the grid. -/
def check_collision_checked (point : Point) (playfield : Playfield) : Option Nat :=
  let result := CollisionResult.NONE
  let result := if point.row > 39 then result ||| CollisionResult.FLOOR else result
  let result :=
    if point.col < 0 ∨ point.col > 9 then result ||| CollisionResult.WALL else result
  match playfield.lookup point.row point.col with
  | none => none
  | some cell =>
    some (if cell ≠ TetriminoType.NONE then result ||| CollisionResult.MINO else result)

/-- A grid with the rows 0, 1, 2 empty and the rows 3 to 39 fully occupied. -/
def low_stack : Fin 40 → Fin 10 → TetriminoType :=
  fun r _ => if r.val < 3 then TetriminoType.NONE else TetriminoType.O

/-- An I piece lying in row 0, facing NORTH, pivot `(0, 4)`. -/
def top_piece : Tetrimino :=
  ⟨.I, .NORTH, ⟨0, 4⟩, ⟨⟨0, 3⟩, ⟨0, 4⟩, ⟨0, 5⟩, ⟨0, 6⟩⟩⟩

/-- Storage next to a playfield in which no cell-sized value is `NONE`. -/
def occupied_storage : Int → Int → TetriminoType := fun _ _ => TetriminoType.O

/-- Storage next to a playfield in which every cell-sized value is `NONE`. -/
def empty_storage : Int → Int → TetriminoType := fun _ _ => TetriminoType.NONE

/-! ## Lemmas on collision detection -/

theorem check_collision_eq_zero_iff (p : Point) (f : Playfield) :
    check_collision p f = 0 ↔
      p.row ≤ 39 ∧ 0 ≤ p.col ∧ p.col ≤ 9 ∧ f.cell p.row p.col = TetriminoType.NONE := by
  unfold check_collision CollisionResult.NONE CollisionResult.FLOOR CollisionResult.WALL
    CollisionResult.MINO
  by_cases h1 : p.row > 39 <;> by_cases h2 : (p.col < 0 ∨ p.col > 9) <;>
    by_cases h3 : f.cell p.row p.col = TetriminoType.NONE <;>
    simp [h1, h2, h3] <;> omega

theorem check_collision_flags (p : Point) (f : Playfield) :
    (check_collision p f &&& CollisionResult.FLOOR ≠ 0 ↔ p.row > 39) ∧
    (check_collision p f &&& CollisionResult.WALL ≠ 0 ↔ (p.col < 0 ∨ p.col > 9)) ∧
    (check_collision p f &&& CollisionResult.MINO ≠ 0 ↔
      f.cell p.row p.col ≠ TetriminoType.NONE) := by
  unfold check_collision CollisionResult.NONE CollisionResult.FLOOR CollisionResult.WALL
    CollisionResult.MINO
  by_cases h1 : p.row > 39 <;> by_cases h2 : (p.col < 0 ∨ p.col > 9) <;>
    by_cases h3 : f.cell p.row p.col = TetriminoType.NONE <;>
    simp [h1, h2, h3] <;> decide

theorem lor_eq_zero_iff (n m : Nat) : n ||| m = 0 ↔ n = 0 ∧ m = 0 := by
  constructor
  · intro h
    have key : ∀ i, (n.testBit i || m.testBit i) = false := fun i => by
      rw [← Nat.testBit_or, h, Nat.zero_testBit]
    constructor <;> apply Nat.eq_of_testBit_eq <;> intro i <;> have hi := key i <;>
      simp_all
  · rintro ⟨rfl, rfl⟩; rfl

theorem check_collision_points_eq (ps : Point4) (f : Playfield) :
    check_collision_points ps f =
      check_collision ps.p0 f ||| check_collision ps.p1 f ||| check_collision ps.p2 f
        ||| check_collision ps.p3 f := by
  simp [check_collision_points, Point4.toList, CollisionResult.NONE]

theorem check_collision_points_eq_zero_iff (ps : Point4) (f : Playfield) :
    check_collision_points ps f = 0 ↔ ∀ p ∈ ps.toList, check_collision p f = 0 := by
  rw [check_collision_points_eq]
  simp [Point4.toList, lor_eq_zero_iff, and_assoc]

theorem translate_eq_of_clear (t : Tetrimino) (d : Point) (f : Playfield)
    (h : ∀ p ∈ t.points.toList, check_collision (p + d) f = 0) :
    t.translate d f =
      (true, { t with pivot := t.pivot + d, points := t.points.map (fun p => p + d) }) := by
  simp only [Point4.toList, List.mem_cons, List.mem_singleton, forall_eq_or_imp, forall_eq,
    List.not_mem_nil, false_implies, implies_true, and_true] at h
  obtain ⟨h0, h1, h2, h3⟩ := h
  simp [Tetrimino.translate, CollisionResult.NONE, h0, h1, h2, h3, Point4.map]

theorem translate_eq_of_collision (t : Tetrimino) (d : Point) (f : Playfield)
    (h : ∃ p ∈ t.points.toList, check_collision (p + d) f ≠ 0) :
    t.translate d f = (false, t) := by
  obtain ⟨p, hp, hc⟩ := h
  simp only [Point4.toList, List.mem_cons, List.mem_singleton, List.not_mem_nil,
    or_false] at hp
  unfold Tetrimino.translate
  simp only [CollisionResult.NONE]
  rcases hp with rfl | rfl | rfl | rfl <;> split_ifs <;> rfl

/-! ## Translation (C1, C2) -/

/-- C1. Translate atomicity: when one of the four points of `t`, shifted by `d`,
collides on `f`, `translate` returns `false` and the Tetrimino after the call —
type, facing, pivot and points — is the one before it. -/
theorem translate_atomic (t : Tetrimino) (d : Point) (f : Playfield)
    (h : ∃ p ∈ t.points.toList, check_collision (p + d) f ≠ CollisionResult.NONE) :
    t.translate d f = (false, t) :=
  translate_eq_of_collision t d f h

/-- C1 at a concrete input: the spawned I piece moved four columns to the left
on an empty playfield leaves the grid with its first cell. -/
theorem translate_atomic_witness :
    (∃ p ∈ (Tetrimino.spawn .I).points.toList,
        check_collision (p + ⟨0, -4⟩) (row_major (fun _ _ => .NONE)) ≠ CollisionResult.NONE) ∧
      (Tetrimino.spawn .I).translate ⟨0, -4⟩ (row_major (fun _ _ => .NONE))
        = (false, Tetrimino.spawn .I) :=
  ⟨⟨⟨19, 3⟩, by decide, by decide⟩,
   translate_atomic _ _ _ ⟨⟨19, 3⟩, by decide, by decide⟩⟩

/-- C2. Translate success: `translate` returns `true` exactly when none of the
four shifted points collides, and then the pivot is `pivot + d`, every point is
the old point `+ d` in the same position, and type and facing are kept. -/
theorem translate_success (t : Tetrimino) (d : Point) (f : Playfield) :
    ((t.translate d f).1 = true ↔
        ∀ p ∈ t.points.toList, check_collision (p + d) f = CollisionResult.NONE) ∧
    ((t.translate d f).1 = true →
        (t.translate d f).2 =
          { type := t.type, facing := t.facing, pivot := t.pivot + d,
            points := ⟨t.points.p0 + d, t.points.p1 + d, t.points.p2 + d, t.points.p3 + d⟩ }) := by
  by_cases h : ∀ p ∈ t.points.toList, check_collision (p + d) f = 0
  · rw [translate_eq_of_clear t d f h]
    exact ⟨⟨fun _ => h, fun _ => rfl⟩, fun _ => rfl⟩
  · have h2 : ∃ p ∈ t.points.toList, check_collision (p + d) f ≠ 0 := by
      push_neg at h; exact h
    rw [translate_eq_of_collision t d f h2]
    exact ⟨⟨fun hf => by simp at hf, fun hc => absurd hc h⟩, fun hf => by simp at hf⟩

/-- C2 at a concrete input: the spawned T piece moved one row down on an empty
playfield. -/
theorem translate_success_witness :
    ((Tetrimino.spawn .T).translate ⟨1, 0⟩ (row_major (fun _ _ => .NONE))).1 = true ∧
    ((Tetrimino.spawn .T).translate ⟨1, 0⟩ (row_major (fun _ _ => .NONE))).2 =
      ⟨.T, .NORTH, ⟨20, 4⟩, ⟨⟨19, 4⟩, ⟨20, 3⟩, ⟨20, 4⟩, ⟨20, 5⟩⟩⟩ :=
  ⟨by decide, (translate_success _ _ _).2 (by decide)⟩

/-! ## Collision bitmask (C3) -/

/-- C3, evaluated on the code at a point outside the grid: for `p = (5, 10)` the
unchecked read `playfield[5][10]` is made all the same, and with rows stored one
after the other it is the cell `(6, 0)`; that cell being occupied, the result
carries `MINO` next to `WALL` although `p` is not inside the grid. -/
theorem check_collision_outside_grid_sets_mino :
    ¬ in_grid 5 10 ∧
    check_collision ⟨5, 10⟩ (row_major (single_mino 6 0))
      = CollisionResult.WALL ||| CollisionResult.MINO ∧
    check_collision ⟨5, 10⟩ (row_major (single_mino 6 0)) &&& CollisionResult.MINO ≠ 0 := by
  decide

/-! ## SRS kick resolution (C4) -/

theorem get_srs_offset_value_eq (tables : SrsTables) (type : TetriminoType)
    (htype : has_kick_table type) (facing : TetriminoFacing) (i : Nat) :
    get_srs_offset_value tables type facing i = some (srs_table tables type facing i) := by
  rcases htype with h | h | h | h | h | h <;> subst h <;> rfl

theorem calculate_srs_offset_eq (tables : SrsTables) (type : TetriminoType)
    (htype : has_kick_table type) (before after : TetriminoFacing) (i : Nat) :
    calculate_srs_offset tables i type before after
      = some (srs_kick tables type before after i) := by
  unfold calculate_srs_offset
  rw [get_srs_offset_value_eq tables type htype, get_srs_offset_value_eq tables type htype]
  rfl

theorem process_srs_eq (tables : SrsTables) (type : TetriminoType)
    (htype : has_kick_table type) (c : Point4) (f : Playfield)
    (before after : TetriminoFacing) (offset : Point)
    (hcol : check_collision_points c f ≠ 0) :
    process_srs tables type c f before after offset =
      if clear_at c f (srs_kick tables type before after 0) then
        some (true, srs_kick tables type before after 0)
      else if clear_at c f (srs_kick tables type before after 1) then
        some (true, srs_kick tables type before after 1)
      else if clear_at c f (srs_kick tables type before after 2) then
        some (true, srs_kick tables type before after 2)
      else if clear_at c f (srs_kick tables type before after 3) then
        some (true, srs_kick tables type before after 3)
      else some (false, srs_kick tables type before after 3) := by
  unfold process_srs
  rw [if_neg hcol]
  simp only [process_srs_loop, calculate_srs_offset_eq tables type htype, clear_at]

theorem forall_lt_four (P : Nat → Prop) :
    (∀ i, i < 4 → P i) ↔ P 0 ∧ P 1 ∧ P 2 ∧ P 3 := by
  constructor
  · intro h
    exact ⟨h 0 (by omega), h 1 (by omega), h 2 (by omega), h 3 (by omega)⟩
  · rintro ⟨h0, h1, h2, h3⟩ i hi
    interval_cases i <;> assumption

theorem exists_lt_four (P : Nat → Prop) :
    (∃ i, i < 4 ∧ P i) ↔ P 0 ∨ P 1 ∨ P 2 ∨ P 3 := by
  constructor
  · rintro ⟨i, hi, h⟩
    interval_cases i <;> simp [h]
  · rintro (h | h | h | h)
    exacts [⟨0, by omega, h⟩, ⟨1, by omega, h⟩, ⟨2, by omega, h⟩, ⟨3, by omega, h⟩]

/-- C4. SRS kick order: for a piece type with a kick table and a candidate `c`
that collides at zero offset, the lookup succeeds for every index with
`value(before, i) - value(after, i)`; `process_srs` returns `true` exactly when
one of the indices `0..3` gives a collision-free shifted candidate, the offset
it then leaves is the one of the smallest such index, and it returns `false`
exactly when all four shifted candidates collide. -/
theorem process_srs_kick_order (tables : SrsTables) (type : TetriminoType)
    (htype : has_kick_table type) (c : Point4) (f : Playfield)
    (before after : TetriminoFacing) (offset : Point)
    (hcol : check_collision_points c f ≠ CollisionResult.NONE) :
    (∀ facing i, get_srs_offset_value tables type facing i
        = some (srs_table tables type facing i)) ∧
    (∀ i, calculate_srs_offset tables i type before after
        = some (srs_table tables type before i - srs_table tables type after i)) ∧
    ((∃ offset_out, process_srs tables type c f before after offset = some (true, offset_out)) ↔
        ∃ i, i < 4 ∧ clear_at c f (srs_kick tables type before after i)) ∧
    (∀ i, i < 4 → clear_at c f (srs_kick tables type before after i) →
        (∀ j, j < i → ¬ clear_at c f (srs_kick tables type before after j)) →
        process_srs tables type c f before after offset
          = some (true, srs_kick tables type before after i)) ∧
    ((∃ offset_out, process_srs tables type c f before after offset = some (false, offset_out)) ↔
        ∀ i, i < 4 → ¬ clear_at c f (srs_kick tables type before after i)) := by
  refine ⟨get_srs_offset_value_eq tables type htype,
    calculate_srs_offset_eq tables type htype before after, ?_, ?_, ?_⟩
  · rw [process_srs_eq tables type htype c f before after offset hcol, exists_lt_four]
    by_cases h0 : clear_at c f (srs_kick tables type before after 0) <;>
    by_cases h1 : clear_at c f (srs_kick tables type before after 1) <;>
    by_cases h2 : clear_at c f (srs_kick tables type before after 2) <;>
    by_cases h3 : clear_at c f (srs_kick tables type before after 3) <;>
    simp [h0, h1, h2, h3]
  · intro i hi hclear hfirst
    rw [process_srs_eq tables type htype c f before after offset hcol]
    interval_cases i
    · rw [if_pos hclear]
    · rw [if_neg (hfirst 0 (by omega)), if_pos hclear]
    · rw [if_neg (hfirst 0 (by omega)), if_neg (hfirst 1 (by omega)), if_pos hclear]
    · rw [if_neg (hfirst 0 (by omega)), if_neg (hfirst 1 (by omega)),
        if_neg (hfirst 2 (by omega)), if_pos hclear]
  · rw [process_srs_eq tables type htype c f before after offset hcol, forall_lt_four]
    by_cases h0 : clear_at c f (srs_kick tables type before after 0) <;>
    by_cases h1 : clear_at c f (srs_kick tables type before after 1) <;>
    by_cases h2 : clear_at c f (srs_kick tables type before after 2) <;>
    by_cases h3 : clear_at c f (srs_kick tables type before after 3) <;>
    simp [h0, h1, h2, h3]

/-- C4 at a concrete input: the clockwise candidate of the spawned T piece with
the cell `(20, 4)` occupied collides at zero offset and at index 0, and is free
at index 1, whose kick `(0, -1)` is the one returned. -/
theorem process_srs_kick_order_witness :
    has_kick_table .T ∧
    check_collision_points (cw_candidate (Tetrimino.spawn .T)) (row_major (single_mino 20 4))
      ≠ CollisionResult.NONE ∧
    process_srs sample_tables .T (cw_candidate (Tetrimino.spawn .T))
      (row_major (single_mino 20 4)) .NORTH .EAST Point.zero = some (true, ⟨0, -1⟩) :=
  ⟨by decide, by decide,
   (process_srs_kick_order sample_tables .T (by decide) (cw_candidate (Tetrimino.spawn .T))
      (row_major (single_mino 20 4)) .NORTH .EAST Point.zero (by decide)).2.2.2.1 1
      (by decide) (by decide) (by intro j hj; interval_cases j; decide)⟩

/-! ## Rotation (C5, C6, C7, C8) -/

theorem Point.add_zero (p : Point) : p + Point.zero = p := by
  show Point.add p Point.zero = p
  simp [Point.add, Point.zero]

theorem Point4.map_add_zero (ps : Point4) : ps.map (fun p => p + Point.zero) = ps := by
  simp [Point4.map, Point.add_zero]

theorem Point4.toList_map (g : Point → Point) (ps : Point4) :
    (ps.map g).toList = ps.toList.map g := rfl

theorem rotate_commit_of_clear (tables : SrsTables) (storage : Int → Int → TetriminoType)
    (t : Tetrimino) (new_facing : TetriminoFacing) (c : Point4) (f : Playfield)
    (hclear : check_collision_points c (f.copy storage) = 0) :
    rotate_commit tables storage t new_facing c f =
      some (true, { t with points := c, facing := new_facing }) := by
  simp [rotate_commit, process_srs, hclear, Point.add_zero, Point4.map]

theorem rotate_commit_of_blocked (tables : SrsTables) (storage : Int → Int → TetriminoType)
    (t : Tetrimino) (new_facing : TetriminoFacing) (c : Point4) (f : Playfield)
    (h0 : check_collision_points c (f.copy storage) ≠ 0)
    (hk : ∀ i, i < 4 → ∃ offset,
      calculate_srs_offset tables i t.type t.facing new_facing = some offset ∧
      ¬ clear_at c (f.copy storage) offset) :
    rotate_commit tables storage t new_facing c f = some (false, t) := by
  obtain ⟨⟨o0, e0, c0⟩, ⟨o1, e1, c1⟩, ⟨o2, e2, c2⟩, ⟨o3, e3, c3⟩⟩ :=
    (forall_lt_four _).1 hk
  unfold clear_at at c0 c1 c2 c3
  simp [rotate_commit, process_srs, process_srs_loop, h0, e0, e1, e2, e3, c0, c1, c2, c3]

theorem Point.add_def (a b : Point) : a + b = ⟨a.row + b.row, a.col + b.col⟩ := rfl

theorem Point.sub_def (a b : Point) : a - b = ⟨a.row - b.row, a.col - b.col⟩ := rfl

theorem cw_candidate_eq_spec (t : Tetrimino) :
    cw_candidate t = t.points.map (spec_cw_point t) := by
  unfold cw_candidate spec_cw_point
  by_cases hI : t.type = TetriminoType.I <;>
    simp [hI, Point4.map, Point.add_def, Point.sub_def] <;> omega

theorem ccw_candidate_eq_spec (t : Tetrimino) :
    ccw_candidate t = t.points.map (spec_ccw_point t) := by
  unfold ccw_candidate spec_ccw_point
  by_cases hI : t.type = TetriminoType.I <;>
    simp [hI, Point4.map, Point.add_def, Point.sub_def] <;> omega

theorem rotate_cw_of_clear (tables : SrsTables) (storage : Int → Int → TetriminoType)
    (t : Tetrimino) (f : Playfield) (hO : t.type ≠ TetriminoType.O)
    (hclear : check_collision_points (cw_candidate t) (f.copy storage) = 0) :
    t.rotate_cw tables storage f =
      some (true, { t with points := cw_candidate t, facing := cw_facing t.facing }) := by
  unfold Tetrimino.rotate_cw
  rw [if_neg hO]
  exact rotate_commit_of_clear tables storage t _ _ f hclear

theorem rotate_ccw_of_clear (tables : SrsTables) (storage : Int → Int → TetriminoType)
    (t : Tetrimino) (f : Playfield) (hO : t.type ≠ TetriminoType.O)
    (hclear : check_collision_points (ccw_candidate t) (f.copy storage) = 0) :
    t.rotate_ccw tables storage f =
      some (true, { t with points := ccw_candidate t, facing := ccw_facing t.facing }) := by
  unfold Tetrimino.rotate_ccw
  rw [if_neg hO]
  exact rotate_commit_of_clear tables storage t _ _ f hclear

/-- The facing moves one step forward in the cycle NORTH, EAST, SOUTH, WEST for
a clockwise rotation and one step back for a counter-clockwise one. -/
theorem facing_steps (facing : TetriminoFacing) :
    facing_index (cw_facing facing) = (facing_index facing + 1) % 4 ∧
    facing_index (ccw_facing facing) = (facing_index facing + 3) % 4 := by
  cases facing <;> exact ⟨rfl, rfl⟩

/-! ### The copy and the original -/

theorem cell_copy_of_in_grid (f : Playfield) (storage : Int → Int → TetriminoType)
    (r c : Int) (h : in_grid r c) : (f.copy storage).cell r c = f.cell r c := by
  unfold Playfield.cell Playfield.copy
  simp only [dif_pos h]

/-- For a point that is not above the grid the copy and the original give the
same verdict: inside the grid both read the same cell, below it or beside it a
flag is set whatever the read finds. -/
theorem check_collision_copy (p : Point) (f : Playfield)
    (storage : Int → Int → TetriminoType) (h : 0 ≤ p.row) :
    check_collision p (f.copy storage) = 0 ↔ check_collision p f = 0 := by
  rw [check_collision_eq_zero_iff, check_collision_eq_zero_iff]
  constructor
  · rintro ⟨h1, h2, h3, h4⟩
    have hin : in_grid p.row p.col := ⟨h, by omega, h2, by omega⟩
    rw [cell_copy_of_in_grid f storage _ _ hin] at h4
    exact ⟨h1, h2, h3, h4⟩
  · rintro ⟨h1, h2, h3, h4⟩
    have hin : in_grid p.row p.col := ⟨h, by omega, h2, by omega⟩
    rw [← cell_copy_of_in_grid f storage _ _ hin] at h4
    exact ⟨h1, h2, h3, h4⟩

theorem check_collision_points_copy (ps : Point4) (f : Playfield)
    (storage : Int → Int → TetriminoType) (h : ∀ p ∈ ps.toList, 0 ≤ p.row) :
    check_collision_points ps (f.copy storage) = 0 ↔ check_collision_points ps f = 0 := by
  rw [check_collision_points_eq_zero_iff, check_collision_points_eq_zero_iff]
  constructor
  · intro hc p hp
    exact (check_collision_copy p f storage (h p hp)).1 (hc p hp)
  · intro hc p hp
    exact (check_collision_copy p f storage (h p hp)).2 (hc p hp)

/-- With no cell of the candidate above the grid, a candidate that is
collision-free on the playfield is accepted without kick, wherever the copy
lies. -/
theorem rotate_cw_of_clear_in_rows (tables : SrsTables) (storage : Int → Int → TetriminoType)
    (t : Tetrimino) (f : Playfield) (hO : t.type ≠ TetriminoType.O)
    (hrows : ∀ p ∈ (cw_candidate t).toList, 0 ≤ p.row)
    (hclear : check_collision_points (cw_candidate t) f = 0) :
    t.rotate_cw tables storage f =
      some (true, { t with points := cw_candidate t, facing := cw_facing t.facing }) :=
  rotate_cw_of_clear tables storage t f hO
    ((check_collision_points_copy _ f storage hrows).2 hclear)

theorem rotate_ccw_of_clear_in_rows (tables : SrsTables) (storage : Int → Int → TetriminoType)
    (t : Tetrimino) (f : Playfield) (hO : t.type ≠ TetriminoType.O)
    (hrows : ∀ p ∈ (ccw_candidate t).toList, 0 ≤ p.row)
    (hclear : check_collision_points (ccw_candidate t) f = 0) :
    t.rotate_ccw tables storage f =
      some (true, { t with points := ccw_candidate t, facing := ccw_facing t.facing }) :=
  rotate_ccw_of_clear tables storage t f hO
    ((check_collision_points_copy _ f storage hrows).2 hclear)

/-- With no cell of the candidate or of its four kicked copies above the grid,
a candidate that collides on the playfield at zero offset and at the four kicks
is rejected and nothing is stored, wherever the copy lies. -/
theorem rotate_commit_rejected_in_rows (tables : SrsTables)
    (storage : Int → Int → TetriminoType) (t : Tetrimino) (new_facing : TetriminoFacing)
    (c : Point4) (f : Playfield) (hrows : ∀ p ∈ c.toList, 0 ≤ p.row)
    (h0 : check_collision_points c f ≠ 0)
    (hk : ∀ i, i < 4 → ∃ offset,
      calculate_srs_offset tables i t.type t.facing new_facing = some offset ∧
      (∀ p ∈ c.toList, 0 ≤ p.row + offset.row) ∧ ¬ clear_at c f offset) :
    rotate_commit tables storage t new_facing c f = some (false, t) := by
  apply rotate_commit_of_blocked
  · intro h
    exact h0 ((check_collision_points_copy c f storage hrows).1 h)
  · intro i hi
    obtain ⟨offset, e, hr, hc⟩ := hk i hi
    refine ⟨offset, e, fun h => hc ?_⟩
    unfold clear_at at h ⊢
    refine (check_collision_points_copy _ f storage ?_).1 h
    simp only [Point4.toList_map, List.mem_map]
    rintro q ⟨p, hp, rfl⟩
    simp only [Point.add_def]
    exact hr p hp

/-! ### The rotation of a piece with a candidate cell above the grid (C5, C6) -/

theorem top_piece_cw_candidate :
    cw_candidate top_piece = ⟨⟨-1, 5⟩, ⟨0, 5⟩, ⟨1, 5⟩, ⟨2, 5⟩⟩ := by
  decide

theorem low_stack_cell (r c : Int)
    (h : (⟨low_stack, occupied_storage⟩ : Playfield).cell r c = TetriminoType.NONE) :
    0 ≤ r ∧ r < 3 := by
  unfold Playfield.cell at h
  by_cases hin : in_grid r c
  · rw [dif_pos hin] at h
    simp only [low_stack] at h
    unfold in_grid at hin
    split_ifs at h with hlt
    omega
  · rw [dif_neg hin] at h
    simp [occupied_storage] at h

/-- On the low stack with occupied storage around it, the upright I shape of
four rows collides wherever it is shifted: only three rows are empty. -/
theorem low_stack_never_clear (offset : Point) :
    ¬ clear_at (⟨⟨-1, 5⟩, ⟨0, 5⟩, ⟨1, 5⟩, ⟨2, 5⟩⟩ : Point4) ⟨low_stack, occupied_storage⟩
      offset := by
  intro hclear
  unfold clear_at at hclear
  rw [check_collision_points_eq_zero_iff] at hclear
  have h0 := hclear ((⟨-1, 5⟩ : Point) + offset) (by simp [Point4.map, Point4.toList])
  have h3 := hclear ((⟨2, 5⟩ : Point) + offset) (by simp [Point4.map, Point4.toList])
  rw [check_collision_eq_zero_iff] at h0 h3
  have r0 := low_stack_cell _ _ h0.2.2.2
  have r3 := low_stack_cell _ _ h3.2.2.2
  simp only [Point.add_def] at r0 r3
  omega

/-- C6, evaluated on the code where it fails: the I piece in row 0 of the low
stack, turned clockwise, with empty storage next to the playfield and occupied
storage next to the copy that `process_srs` receives.  The candidate of the
specification, `(-1,5) (0,5) (1,5) (2,5)`, is collision-free on the playfield;
on the copy it collides at zero offset and at every kick, whatever the kick
table, and `rotate_cw` returns `false` leaving the piece as it was. -/
theorem rotate_rejects_clear_candidate (tables : SrsTables) :
    top_piece.type ≠ TetriminoType.O ∧
    top_piece.points.map (spec_cw_point top_piece) = ⟨⟨-1, 5⟩, ⟨0, 5⟩, ⟨1, 5⟩, ⟨2, 5⟩⟩ ∧
    check_collision_points (top_piece.points.map (spec_cw_point top_piece))
      ⟨low_stack, empty_storage⟩ = CollisionResult.NONE ∧
    top_piece.rotate_cw tables occupied_storage ⟨low_stack, empty_storage⟩
      = some (false, top_piece) := by
  refine ⟨by decide, by decide, by decide, ?_⟩
  unfold Tetrimino.rotate_cw
  rw [if_neg (by decide)]
  apply rotate_commit_of_blocked
  · decide
  · intro i _
    refine ⟨_, calculate_srs_offset_eq tables top_piece.type (by decide) _ _ i, ?_⟩
    rw [top_piece_cw_candidate]
    exact low_stack_never_clear _

/-! ### O piece and round trip (C8, C7) -/

/-- C8. O-piece rotation identity: for a Tetrimino of type O, whatever its
facing, pivot and points, and every playfield, `rotate_cw` and `rotate_ccw`
return `true` and leave the Tetrimino as it was. -/
theorem rotate_o_identity (tables : SrsTables) (storage : Int → Int → TetriminoType)
    (t : Tetrimino) (f : Playfield) (hO : t.type = TetriminoType.O) :
    t.rotate_cw tables storage f = some (true, t) ∧
    t.rotate_ccw tables storage f = some (true, t) := by
  unfold Tetrimino.rotate_cw Tetrimino.rotate_ccw
  rw [if_pos hO, if_pos hO]
  exact ⟨rfl, rfl⟩

/-- C8 at a concrete input: an O piece with facing SOUTH placed across the right
wall of a fully occupied grid. -/
theorem rotate_o_identity_witness :
    (⟨.O, .SOUTH, ⟨3, 9⟩, ⟨⟨2, 9⟩, ⟨2, 10⟩, ⟨3, 9⟩, ⟨3, 10⟩⟩⟩ : Tetrimino).rotate_cw
        sample_tables occupied_storage (row_major full_grid)
      = some (true, ⟨.O, .SOUTH, ⟨3, 9⟩, ⟨⟨2, 9⟩, ⟨2, 10⟩, ⟨3, 9⟩, ⟨3, 10⟩⟩⟩) ∧
    (⟨.O, .SOUTH, ⟨3, 9⟩, ⟨⟨2, 9⟩, ⟨2, 10⟩, ⟨3, 9⟩, ⟨3, 10⟩⟩⟩ : Tetrimino).rotate_ccw
        sample_tables occupied_storage (row_major full_grid)
      = some (true, ⟨.O, .SOUTH, ⟨3, 9⟩, ⟨⟨2, 9⟩, ⟨2, 10⟩, ⟨3, 9⟩, ⟨3, 10⟩⟩⟩) :=
  rotate_o_identity sample_tables occupied_storage _ (row_major full_grid) rfl

theorem four_cw_of_clear (tables : SrsTables) (s1 s2 s3 s4 : Int → Int → TetriminoType)
    (f : Playfield) (t0 t1 t2 t3 t4 : Tetrimino)
    (hO : t0.type ≠ TetriminoType.O)
    (e1 : t1 = { t0 with points := cw_candidate t0, facing := cw_facing t0.facing })
    (e2 : t2 = { t1 with points := cw_candidate t1, facing := cw_facing t1.facing })
    (e3 : t3 = { t2 with points := cw_candidate t2, facing := cw_facing t2.facing })
    (e4 : t4 = { t3 with points := cw_candidate t3, facing := cw_facing t3.facing })
    (c0 : check_collision_points (cw_candidate t0) (f.copy s1) = 0)
    (c1 : check_collision_points (cw_candidate t1) (f.copy s2) = 0)
    (c2 : check_collision_points (cw_candidate t2) (f.copy s3) = 0)
    (c3 : check_collision_points (cw_candidate t3) (f.copy s4) = 0) :
    t0.rotate_cw tables s1 f = some (true, t1) ∧ t1.rotate_cw tables s2 f = some (true, t2) ∧
    t2.rotate_cw tables s3 f = some (true, t3) ∧ t3.rotate_cw tables s4 f = some (true, t4) := by
  have h1 : t1.type ≠ TetriminoType.O := by rw [e1]; exact hO
  have h2 : t2.type ≠ TetriminoType.O := by rw [e2]; exact h1
  have h3 : t3.type ≠ TetriminoType.O := by rw [e3]; exact h2
  refine ⟨?_, ?_, ?_, ?_⟩
  · rw [e1]; exact rotate_cw_of_clear tables s1 t0 f hO c0
  · rw [e2]; exact rotate_cw_of_clear tables s2 t1 f h1 c1
  · rw [e3]; exact rotate_cw_of_clear tables s3 t2 f h2 c2
  · rw [e4]; exact rotate_cw_of_clear tables s4 t3 f h3 c3

theorem four_ccw_of_clear (tables : SrsTables) (s1 s2 s3 s4 : Int → Int → TetriminoType)
    (f : Playfield) (t0 t1 t2 t3 t4 : Tetrimino)
    (hO : t0.type ≠ TetriminoType.O)
    (e1 : t1 = { t0 with points := ccw_candidate t0, facing := ccw_facing t0.facing })
    (e2 : t2 = { t1 with points := ccw_candidate t1, facing := ccw_facing t1.facing })
    (e3 : t3 = { t2 with points := ccw_candidate t2, facing := ccw_facing t2.facing })
    (e4 : t4 = { t3 with points := ccw_candidate t3, facing := ccw_facing t3.facing })
    (c0 : check_collision_points (ccw_candidate t0) (f.copy s1) = 0)
    (c1 : check_collision_points (ccw_candidate t1) (f.copy s2) = 0)
    (c2 : check_collision_points (ccw_candidate t2) (f.copy s3) = 0)
    (c3 : check_collision_points (ccw_candidate t3) (f.copy s4) = 0) :
    t0.rotate_ccw tables s1 f = some (true, t1) ∧ t1.rotate_ccw tables s2 f = some (true, t2) ∧
    t2.rotate_ccw tables s3 f = some (true, t3) ∧
    t3.rotate_ccw tables s4 f = some (true, t4) := by
  have h1 : t1.type ≠ TetriminoType.O := by rw [e1]; exact hO
  have h2 : t2.type ≠ TetriminoType.O := by rw [e2]; exact h1
  have h3 : t3.type ≠ TetriminoType.O := by rw [e3]; exact h2
  refine ⟨?_, ?_, ?_, ?_⟩
  · rw [e1]; exact rotate_ccw_of_clear tables s1 t0 f hO c0
  · rw [e2]; exact rotate_ccw_of_clear tables s2 t1 f h1 c1
  · rw [e3]; exact rotate_ccw_of_clear tables s3 t2 f h2 c2
  · rw [e4]; exact rotate_ccw_of_clear tables s4 t3 f h3 c3

theorem check_collision_empty_of_in_grid (beyond : Int → Int → TetriminoType) (p : Point)
    (h : in_grid p.row p.col) : check_collision p (Playfield.empty beyond) = 0 := by
  rw [check_collision_eq_zero_iff]
  have hc : (Playfield.empty beyond).cell p.row p.col = TetriminoType.NONE := by
    unfold Playfield.cell
    rw [dif_pos h]; rfl
  unfold in_grid at h
  exact ⟨by omega, by omega, by omega, hc⟩

theorem check_collision_points_empty (beyond : Int → Int → TetriminoType) (ps : Point4)
    (h : ∀ p ∈ ps.toList, in_grid p.row p.col) :
    check_collision_points ps (Playfield.empty beyond) = 0 := by
  rw [check_collision_points_eq_zero_iff]
  exact fun p hp => check_collision_empty_of_in_grid beyond p (h p hp)

theorem check_collision_points_empty_copy (beyond storage : Int → Int → TetriminoType)
    (ps : Point4) (h : ∀ p ∈ ps.toList, in_grid p.row p.col) :
    check_collision_points ps ((Playfield.empty beyond).copy storage) = 0 :=
  check_collision_points_empty storage ps h

/-- C7. Rotation round-trip: for each of the piece types I, T, L, J, S, Z, on a
playfield whose grid is empty, four `rotate_cw` calls in a row from the freshly
spawned Tetrimino all return `true` and the fourth leaves the spawned Tetrimino
(facing, pivot and all four points); likewise for four `rotate_ccw` calls.  It
holds for every kick table, whatever lies next to the playfield and next to the
copy each call hands to `process_srs`. -/
theorem rotation_round_trip (tables : SrsTables) (beyond : Int → Int → TetriminoType)
    (s1 s2 s3 s4 : Int → Int → TetriminoType)
    (type : TetriminoType) (htype : has_kick_table type) :
    (∃ t1 t2 t3,
      (Tetrimino.spawn type).rotate_cw tables s1 (Playfield.empty beyond) = some (true, t1) ∧
      t1.rotate_cw tables s2 (Playfield.empty beyond) = some (true, t2) ∧
      t2.rotate_cw tables s3 (Playfield.empty beyond) = some (true, t3) ∧
      t3.rotate_cw tables s4 (Playfield.empty beyond) = some (true, Tetrimino.spawn type)) ∧
    (∃ t1 t2 t3,
      (Tetrimino.spawn type).rotate_ccw tables s1 (Playfield.empty beyond) = some (true, t1) ∧
      t1.rotate_ccw tables s2 (Playfield.empty beyond) = some (true, t2) ∧
      t2.rotate_ccw tables s3 (Playfield.empty beyond) = some (true, t3) ∧
      t3.rotate_ccw tables s4 (Playfield.empty beyond) = some (true, Tetrimino.spawn type)) := by
  rcases htype with h | h | h | h | h | h <;> subst h <;>
    exact ⟨⟨_, _, _, four_cw_of_clear tables s1 s2 s3 s4 _ _ _ _ _ _ (by decide)
        rfl rfl rfl (by decide)
        (check_collision_points_empty_copy _ _ _ (by decide))
        (check_collision_points_empty_copy _ _ _ (by decide))
        (check_collision_points_empty_copy _ _ _ (by decide))
        (check_collision_points_empty_copy _ _ _ (by decide))⟩,
      ⟨_, _, _, four_ccw_of_clear tables s1 s2 s3 s4 _ _ _ _ _ _ (by decide)
        rfl rfl rfl (by decide)
        (check_collision_points_empty_copy _ _ _ (by decide))
        (check_collision_points_empty_copy _ _ _ (by decide))
        (check_collision_points_empty_copy _ _ _ (by decide))
        (check_collision_points_empty_copy _ _ _ (by decide))⟩⟩

/-- C7 at a concrete input: the I piece, with the sample kick table. -/
theorem rotation_round_trip_witness :
    has_kick_table .I ∧
    ∃ t1 t2 t3,
      (Tetrimino.spawn .I).rotate_cw sample_tables occupied_storage
          (Playfield.empty (fun _ _ => .NONE)) = some (true, t1) ∧
      t1.rotate_cw sample_tables occupied_storage (Playfield.empty (fun _ _ => .NONE))
        = some (true, t2) ∧
      t2.rotate_cw sample_tables occupied_storage (Playfield.empty (fun _ _ => .NONE))
        = some (true, t3) ∧
      t3.rotate_cw sample_tables occupied_storage (Playfield.empty (fun _ _ => .NONE))
        = some (true, Tetrimino.spawn .I) :=
  ⟨by decide,
   (rotation_round_trip sample_tables (fun _ _ => .NONE) occupied_storage occupied_storage
      occupied_storage occupied_storage .I (by decide)).1⟩

/-! ## Landing (C9, C10) -/

/-- A left fold whose step keeps the accumulator or replaces it by a smaller
candidate of the element (`S b x`: `x` is a candidate of `b`) computes a lower
bound of the start value and of all candidates, and returns the start value or
one of the candidates. -/
theorem foldl_min_spec {β : Type} (step : Int → β → Int) (S : β → Int → Prop)
    (hstep : ∀ d b, step d b ≤ d ∧ (∀ x, S b x → step d b ≤ x) ∧
      (step d b = d ∨ S b (step d b))) :
    ∀ (l : List β) (d : Int),
      l.foldl step d ≤ d ∧ (∀ b ∈ l, ∀ x, S b x → l.foldl step d ≤ x) ∧
      (l.foldl step d = d ∨ ∃ b ∈ l, S b (l.foldl step d)) := by
  intro l
  induction l with
  | nil => intro d; simp
  | cons b l ih =>
    intro d
    obtain ⟨h1, h2, h3⟩ := ih (step d b)
    obtain ⟨s1, s2, s3⟩ := hstep d b
    simp only [List.foldl_cons, List.mem_cons, forall_eq_or_imp, exists_eq_or_imp]
    refine ⟨le_trans h1 s1, ⟨fun x hx => le_trans h1 (s2 x hx), h2⟩, ?_⟩
    rcases h3 with h3 | h3
    · rcases s3 with s3 | s3
      · left; rw [h3, s3]
      · right; left; rw [h3]; exact s3
    · right; right; exact h3

theorem landing_step_spec (f : Playfield) (row : Int) (d : Int) (p : Point) :
    landing_step f row d p ≤ d ∧ (∀ x, mino_candidate f row p x → landing_step f row d p ≤ x) ∧
      (landing_step f row d p = d ∨ mino_candidate f row p (landing_step f row d p)) := by
  unfold landing_step mino_candidate
  split_ifs with h
  · refine ⟨by omega, fun x hx => by omega, Or.inr ⟨h.1, by omega, rfl⟩⟩
  · refine ⟨le_refl _, fun x hx => ?_, Or.inl rfl⟩
    obtain ⟨hx1, hx2, hx3⟩ := hx
    by_contra hlt
    exact h ⟨hx1, by omega, by omega⟩

theorem floor_step_spec (d : Int) (p : Point) :
    floor_step d p ≤ d ∧ (∀ x, x = 39 - p.row → floor_step d p ≤ x) ∧
      (floor_step d p = d ∨ floor_step d p = 39 - p.row) := by
  unfold floor_step
  split_ifs with h
  · exact ⟨by omega, fun x hx => by omega, Or.inr rfl⟩
  · exact ⟨le_refl _, fun x hx => by omega, Or.inl rfl⟩

theorem landing_scan_spec (f : Playfield) (ps : Point4) :
    landing_scan f ps ≤ 41 ∧
    (∀ row : Nat, row < 40 → ∀ p ∈ ps.toList, ∀ x, mino_candidate f row p x →
      landing_scan f ps ≤ x) ∧
    (landing_scan f ps = 41 ∨
      ∃ row : Nat, row < 40 ∧ ∃ p ∈ ps.toList, mino_candidate f row p (landing_scan f ps)) := by
  have inner : ∀ (d : Int) (row : Nat),
      ps.toList.foldl (landing_step f (row : Int)) d ≤ d ∧
      (∀ x, (∃ p ∈ ps.toList, mino_candidate f row p x) →
        ps.toList.foldl (landing_step f (row : Int)) d ≤ x) ∧
      (ps.toList.foldl (landing_step f (row : Int)) d = d ∨
        ∃ p ∈ ps.toList, mino_candidate f row p
          (ps.toList.foldl (landing_step f (row : Int)) d)) := by
    intro d row
    obtain ⟨h1, h2, h3⟩ := foldl_min_spec (landing_step f (row : Int))
      (mino_candidate f (row : Int)) (landing_step_spec f row) ps.toList d
    exact ⟨h1, fun x ⟨p, hp, hx⟩ => h2 p hp x hx, h3⟩
  obtain ⟨h1, h2, h3⟩ := foldl_min_spec
    (fun d (row : Nat) => ps.toList.foldl (landing_step f (row : Int)) d)
    (fun (row : Nat) x => ∃ p ∈ ps.toList, mino_candidate f row p x) inner (List.range 40) 41
  refine ⟨h1, fun row hrow p hp x hx => h2 row (List.mem_range.2 hrow) x ⟨p, hp, hx⟩, ?_⟩
  rcases h3 with h3 | ⟨row, hrow, h3⟩
  · exact Or.inl h3
  · exact Or.inr ⟨row, List.mem_range.1 hrow, h3⟩

theorem landing_distance_le_floor (t : Tetrimino) (f : Playfield) :
    ∀ p ∈ t.points.toList, landing_distance t f ≤ 39 - p.row := by
  intro p hp
  exact (foldl_min_spec floor_step (fun p x => x = 39 - p.row) floor_step_spec
    t.points.toList (landing_scan f t.points)).2.1 p hp _ rfl

theorem landing_distance_le_mino (t : Tetrimino) (f : Playfield) (row : Nat) (hrow : row < 40)
    (p : Point) (hp : p ∈ t.points.toList) (hcell : f.cell row p.col ≠ TetriminoType.NONE)
    (hbelow : 0 ≤ (row : Int) - p.row - 1) :
    landing_distance t f ≤ row - p.row - 1 := by
  have h1 := (foldl_min_spec floor_step (fun p x => x = 39 - p.row) floor_step_spec
    t.points.toList (landing_scan f t.points)).1
  have h2 := (landing_scan_spec f t.points).2.1 row hrow p hp _ ⟨hcell, hbelow, rfl⟩
  exact le_trans h1 h2

theorem landing_distance_attained (t : Tetrimino) (f : Playfield) :
    landing_distance t f = 41 ∨
    (∃ p ∈ t.points.toList, landing_distance t f = 39 - p.row) ∨
    (∃ row : Nat, row < 40 ∧ ∃ p ∈ t.points.toList,
      mino_candidate f row p (landing_distance t f)) := by
  obtain ⟨_, _, h3⟩ := foldl_min_spec floor_step (fun p x => x = 39 - p.row) floor_step_spec
    t.points.toList (landing_scan f t.points)
  rcases h3 with h3 | h3
  · rcases (landing_scan_spec f t.points).2.2 with h4 | h4
    · left; unfold landing_distance; rw [h3, h4]
    · right; right
      unfold landing_distance; rw [h3]; exact h4
  · right; left; exact h3

theorem is_landed_iff (t : Tetrimino) (f : Playfield) :
    t.is_landed f = true ↔ ∃ p ∈ t.points.toList, check_collision (p + ⟨1, 0⟩) f ≠ 0 := by
  simp [Tetrimino.is_landed]

theorem check_collision_ne_zero_iff (p : Point) (f : Playfield) :
    check_collision p f ≠ 0 ↔
      39 < p.row ∨ p.col < 0 ∨ 9 < p.col ∨ f.cell p.row p.col ≠ TetriminoType.NONE := by
  rw [Ne, check_collision_eq_zero_iff]
  constructor
  · intro h
    by_contra hn
    push_neg at hn
    exact h ⟨hn.1, hn.2.1, hn.2.2.1, hn.2.2.2⟩
  · rintro (h | h | h | h) ⟨h1, h2, h3, h4⟩
    · omega
    · omega
    · omega
    · exact h h4

/-- With no point of the piece above row `-2`, the landing distance is the floor
distance of a point of the piece or the distance to an occupied cell under one. -/
theorem landing_distance_attained_of_rows (t : Tetrimino) (f : Playfield)
    (hrows : ∀ p ∈ t.points.toList, -2 ≤ p.row) :
    (∃ p ∈ t.points.toList, landing_distance t f = 39 - p.row) ∨
    (∃ row : Nat, row < 40 ∧ ∃ p ∈ t.points.toList,
      mino_candidate f row p (landing_distance t f)) := by
  rcases landing_distance_attained t f with h | h | h
  · left
    have hp : t.points.p0 ∈ t.points.toList := by simp [Point4.toList]
    have h1 := landing_distance_le_floor t f _ hp
    have h2 := hrows _ hp
    exact ⟨_, hp, by omega⟩
  · exact Or.inl h
  · exact Or.inr h

/-- The copy `get_landing` returns when the translation inside it is accepted. -/
theorem get_landing_of_clear (t : Tetrimino) (f : Playfield)
    (h : ∀ p ∈ t.points.toList, check_collision (p + ⟨landing_distance t f, 0⟩) f = 0) :
    t.get_landing f =
      { t with pivot := t.pivot + ⟨landing_distance t f, 0⟩,
               points := t.points.map (fun p => p + ⟨landing_distance t f, 0⟩) } := by
  unfold Tetrimino.get_landing
  simp only []
  rw [translate_eq_of_clear t _ f h]

/-- The copy `get_landing` returns when the translation inside it is refused. -/
theorem get_landing_of_collision (t : Tetrimino) (f : Playfield)
    (h : ∃ p ∈ t.points.toList, check_collision (p + ⟨landing_distance t f, 0⟩) f ≠ 0) :
    t.get_landing f = t := by
  unfold Tetrimino.get_landing
  simp only []
  rw [translate_eq_of_collision t _ f h]

theorem landing_cell_below_collides (t : Tetrimino) (f : Playfield)
    (hrows : ∀ p ∈ t.points.toList, -2 ≤ p.row) :
    ∃ p ∈ (t.get_landing f).points.toList, check_collision (p + ⟨1, 0⟩) f ≠ 0 := by
  by_cases hclear :
      ∀ p ∈ t.points.toList, check_collision (p + ⟨landing_distance t f, 0⟩) f = 0
  · rw [get_landing_of_clear t f hclear]
    simp only [Point4.toList_map, List.mem_map, exists_exists_and_eq_and]
    rcases landing_distance_attained_of_rows t f hrows with ⟨p, hp, hd⟩ | ⟨row, _, p, hp, hc, _, hd⟩
    · refine ⟨p, hp, ?_⟩
      rw [check_collision_ne_zero_iff]
      left
      simp only [Point.add_def]
      omega
    · refine ⟨p, hp, ?_⟩
      rw [check_collision_ne_zero_iff]
      right; right; right
      simp only [Point.add_def]
      have e : p.row + landing_distance t f + 1 = (row : Int) := by omega
      rw [e, add_zero, add_zero]
      exact hc
  · push_neg at hclear
    have hcol : ∃ p ∈ t.points.toList,
        check_collision (p + ⟨landing_distance t f, 0⟩) f ≠ 0 := hclear
    rw [get_landing_of_collision t f hcol]
    obtain ⟨q, hq, hqc⟩ := hcol
    rw [check_collision_ne_zero_iff] at hqc
    simp only [Point.add_def, add_zero] at hqc
    have hfloor := landing_distance_le_floor t f q hq
    rcases hqc with h | h | h | h
    · omega
    · exact ⟨q, hq, (check_collision_ne_zero_iff _ f).2
        (Or.inr (Or.inl (by simp only [Point.add_def]; omega)))⟩
    · exact ⟨q, hq, (check_collision_ne_zero_iff _ f).2
        (Or.inr (Or.inr (Or.inl (by simp only [Point.add_def]; omega))))⟩
    · rcases lt_trichotomy (landing_distance t f) 1 with hd | hd | hd
      · rcases landing_distance_attained_of_rows t f hrows with
          ⟨p, hp, hd2⟩ | ⟨row, _, p, hp, hc, hb, hd2⟩
        · exact ⟨p, hp, (check_collision_ne_zero_iff _ f).2
            (Or.inl (by simp only [Point.add_def]; omega))⟩
        · refine ⟨p, hp, (check_collision_ne_zero_iff _ f).2 (Or.inr (Or.inr (Or.inr ?_)))⟩
          simp only [Point.add_def, add_zero]
          have e : p.row + 1 = (row : Int) := by omega
          rw [e]
          exact hc
      · refine ⟨q, hq, (check_collision_ne_zero_iff _ f).2 (Or.inr (Or.inr (Or.inr ?_)))⟩
        simp only [Point.add_def, add_zero]
        rw [hd] at h
        exact h
      · exfalso
        have hq2 := hrows q hq
        have hnn : 0 ≤ q.row + landing_distance t f := by omega
        have hcast : ((q.row + landing_distance t f).toNat : Int)
            = q.row + landing_distance t f := Int.toNat_of_nonneg hnn
        have hlt : (q.row + landing_distance t f).toNat < 40 := by omega
        have hle := landing_distance_le_mino t f _ hlt q hq (by rw [hcast]; exact h)
          (by rw [hcast]; omega)
        rw [hcast] at hle
        omega

set_option maxRecDepth 100000

/-- C9, as stated, fails: an I piece lying ten rows above the grid, on an empty
playfield, gets the landing distance 41 (the start value of the scan, which no
floor distance undercuts), its copy is moved to row 31 and is not landed. -/
theorem get_landing_above_grid_not_landed :
    ((⟨.I, .NORTH, ⟨-10, 4⟩, ⟨⟨-10, 3⟩, ⟨-10, 4⟩, ⟨-10, 5⟩, ⟨-10, 6⟩⟩⟩ : Tetrimino).get_landing
        (row_major (fun _ _ => .NONE))).is_landed (row_major (fun _ _ => .NONE)) = false := by
  decide

/-- C9, amended. Landing is landed: for every Tetrimino none of whose four
points is above row `-2` (so for every piece inside the grid) and every
playfield, the copy returned by `get_landing` satisfies `is_landed`: one of its
four cells moved one row down collides. -/
theorem get_landing_is_landed (t : Tetrimino) (f : Playfield)
    (hrows : ∀ p ∈ t.points.toList, -2 ≤ p.row) :
    (t.get_landing f).is_landed f = true ∧
    ∃ p ∈ (t.get_landing f).points.toList,
      check_collision (p + ⟨1, 0⟩) f ≠ CollisionResult.NONE :=
  ⟨(is_landed_iff _ f).2 (landing_cell_below_collides t f hrows),
   landing_cell_below_collides t f hrows⟩

/-- C9 amended, at a concrete input: the spawned I piece over a single occupied
cell `(25, 4)`; its landing copy lies in row 24. -/
theorem get_landing_is_landed_witness :
    (∀ p ∈ (Tetrimino.spawn .I).points.toList, -2 ≤ p.row) ∧
    ((Tetrimino.spawn .I).get_landing (row_major (single_mino 25 4))).is_landed
      (row_major (single_mino 25 4)) = true :=
  ⟨by decide, (get_landing_is_landed _ _ (by decide)).1⟩

/-- C10, as stated, fails.  `translate` tests the cells it moves to, not the
cells it passes: the landing copy of the spawned I piece over the single
occupied cell `(25, 4)` lies in row 24, and moving it by two rows is accepted
(it then lies in row 26).  And the landing copy of a piece ten rows above the
grid is not landed at all: moving it by one row is accepted. -/
theorem landing_copy_moves_down :
    (((Tetrimino.spawn .I).get_landing (row_major (single_mino 25 4))).translate ⟨2, 0⟩
        (row_major (single_mino 25 4))
      = (true, ⟨.I, .NORTH, ⟨26, 4⟩, ⟨⟨26, 3⟩, ⟨26, 4⟩, ⟨26, 5⟩, ⟨26, 6⟩⟩⟩)) ∧
    (((⟨.I, .NORTH, ⟨-10, 4⟩, ⟨⟨-10, 3⟩, ⟨-10, 4⟩, ⟨-10, 5⟩, ⟨-10, 6⟩⟩⟩ : Tetrimino).get_landing
        (row_major (fun _ _ => .NONE))).translate ⟨1, 0⟩ (row_major (fun _ _ => .NONE))
      = (true, ⟨.I, .NORTH, ⟨32, 4⟩, ⟨⟨32, 3⟩, ⟨32, 4⟩, ⟨32, 5⟩, ⟨32, 6⟩⟩⟩)) := by
  decide

/-- C10, amended. Landed copy cannot move one row down, nor any distance from
the floor: for every Tetrimino none of whose four points is above row `-2` and
every playfield, translating the copy returned by `get_landing` by
`Point(d, 0)` collides — `translate` returns `false` and the copy is unchanged —
when `d = 1`, and for every `d ≥ 1` when a cell of the copy lies in row 39 or
lower. -/
theorem landing_copy_cannot_move_down (t : Tetrimino) (f : Playfield) (d : Int)
    (hrows : ∀ p ∈ t.points.toList, -2 ≤ p.row)
    (hd : d = 1 ∨ (1 ≤ d ∧ ∃ p ∈ (t.get_landing f).points.toList, 39 ≤ p.row)) :
    (∃ p ∈ (t.get_landing f).points.toList,
        check_collision (p + ⟨d, 0⟩) f ≠ CollisionResult.NONE) ∧
    (t.get_landing f).translate ⟨d, 0⟩ f = (false, t.get_landing f) := by
  have hcol : ∃ p ∈ (t.get_landing f).points.toList, check_collision (p + ⟨d, 0⟩) f ≠ 0 := by
    rcases hd with hd | ⟨hd, p, hp, hfloor⟩
    · rw [hd]; exact landing_cell_below_collides t f hrows
    · exact ⟨p, hp, (check_collision_ne_zero_iff _ f).2
        (Or.inl (by simp only [Point.add_def]; omega))⟩
  exact ⟨hcol, translate_eq_of_collision _ _ f hcol⟩

/-- C10 amended, at concrete inputs: the landing copy of the spawned I piece over
the occupied cell `(25, 4)` moved by one row, and its landing copy on an empty
playfield (row 39) moved by five rows. -/
theorem landing_copy_cannot_move_down_witness :
    ((Tetrimino.spawn .I).get_landing (row_major (single_mino 25 4))).translate ⟨1, 0⟩
        (row_major (single_mino 25 4))
      = (false, ⟨.I, .NORTH, ⟨24, 4⟩, ⟨⟨24, 3⟩, ⟨24, 4⟩, ⟨24, 5⟩, ⟨24, 6⟩⟩⟩) ∧
    ((Tetrimino.spawn .I).get_landing (row_major (fun _ _ => .NONE))).translate ⟨5, 0⟩
        (row_major (fun _ _ => .NONE))
      = (false, ⟨.I, .NORTH, ⟨39, 4⟩, ⟨⟨39, 3⟩, ⟨39, 4⟩, ⟨39, 5⟩, ⟨39, 6⟩⟩⟩) :=
  ⟨(landing_copy_cannot_move_down (Tetrimino.spawn .I) (row_major (single_mino 25 4)) 1
      (by decide) (Or.inl rfl)).2.trans (by decide),
   (landing_copy_cannot_move_down (Tetrimino.spawn .I) (row_major (fun _ _ => .NONE)) 5
      (by decide) (Or.inr ⟨by decide, ⟨39, 3⟩, by decide, by decide⟩)).2.trans (by decide)⟩

/-! ## Hard drop (C11) -/

theorem landing_distance_nonneg (t : Tetrimino) (f : Playfield)
    (hin : ∀ p ∈ t.points.toList, in_grid p.row p.col) : 0 ≤ landing_distance t f := by
  rcases landing_distance_attained t f with h | ⟨p, hp, h⟩ | ⟨row, _, p, _, _, hb, h⟩
  · omega
  · have := hin p hp
    unfold in_grid at this
    omega
  · omega

theorem shift_free_of_le_landing_distance (t : Tetrimino) (f : Playfield)
    (hin : ∀ p ∈ t.points.toList, in_grid p.row p.col) (hfree : shift_free t f 0)
    (k : Int) (hk0 : 0 ≤ k) (hk : k ≤ landing_distance t f) : shift_free t f k := by
  intro p hp
  show check_collision (p + ⟨k, 0⟩) f = 0
  have hg := hin p hp
  unfold in_grid at hg
  have hfloor := landing_distance_le_floor t f p hp
  have h0 : check_collision (p + ⟨0, 0⟩) f = 0 := hfree p hp
  rw [check_collision_eq_zero_iff] at h0 ⊢
  simp only [Point.add_def, add_zero] at h0 ⊢
  refine ⟨by omega, by omega, by omega, ?_⟩
  rcases eq_or_lt_of_le hk0 with hz | hpos
  · rw [← hz, add_zero]; exact h0.2.2.2
  · by_contra hcell
    have hnn : 0 ≤ p.row + k := by omega
    have hcast : ((p.row + k).toNat : Int) = p.row + k := Int.toNat_of_nonneg hnn
    have hlt : (p.row + k).toNat < 40 := by omega
    have hle := landing_distance_le_mino t f _ hlt p hp (by rw [hcast]; exact hcell)
      (by rw [hcast]; omega)
    rw [hcast] at hle
    omega

theorem not_shift_free_succ_landing_distance (t : Tetrimino) (f : Playfield)
    (hin : ∀ p ∈ t.points.toList, in_grid p.row p.col) :
    ∃ p ∈ t.points.toList, check_collision (p + ⟨landing_distance t f + 1, 0⟩) f ≠ 0 := by
  have hrows : ∀ p ∈ t.points.toList, -2 ≤ p.row := fun p hp => by
    have := hin p hp
    unfold in_grid at this
    omega
  rcases landing_distance_attained_of_rows t f hrows with ⟨p, hp, hd⟩ | ⟨row, _, p, hp, hc, _, hd⟩
  · exact ⟨p, hp, (check_collision_ne_zero_iff _ f).2
      (Or.inl (by simp only [Point.add_def]; omega))⟩
  · refine ⟨p, hp, (check_collision_ne_zero_iff _ f).2 (Or.inr (Or.inr (Or.inr ?_)))⟩
    simp only [Point.add_def, add_zero]
    have e : p.row + (landing_distance t f + 1) = (row : Int) := by omega
    rw [e]
    exact hc

theorem hard_drop_eq (t : Tetrimino) (f : Playfield)
    (hin : ∀ p ∈ t.points.toList, in_grid p.row p.col) (hfree : shift_free t f 0) :
    t.hard_drop f =
      (true, { t with pivot := t.pivot + ⟨landing_distance t f, 0⟩,
                      points := t.points.map (fun p => p + ⟨landing_distance t f, 0⟩) }) := by
  have hclear := shift_free_of_le_landing_distance t f hin hfree (landing_distance t f)
    (landing_distance_nonneg t f hin) (le_refl _)
  unfold Tetrimino.hard_drop
  simp only []
  rw [get_landing_of_clear t f hclear]
  have e : (t.pivot + (⟨landing_distance t f, 0⟩ : Point)).row - t.pivot.row
      = landing_distance t f := by
    simp only [Point.add_def]; omega
  simp only [e]
  exact translate_eq_of_clear t _ f hclear

/-- C11. Hard drop distance: for every Tetrimino whose four cells are inside
the grid and collision-free on `f`, `hard_drop` returns `true` and moves the
pivot and all four points down by exactly `D = landing_distance t f` rows,
columns unchanged.  `D ≥ 0`, the piece moved down by `k` rows is collision-free
for every `0 ≤ k ≤ D`, and `D` is the largest distance with that property;
and `D` is the minimum, over the cells of the piece, of the floor distance
`39 - row` and of the distance to each occupied cell under it in its column. -/
theorem hard_drop_distance (t : Tetrimino) (f : Playfield)
    (hin : ∀ p ∈ t.points.toList, in_grid p.row p.col)
    (hfree : ∀ p ∈ t.points.toList, check_collision p f = CollisionResult.NONE) :
    0 ≤ landing_distance t f ∧
    t.hard_drop f =
      (true, { type := t.type, facing := t.facing,
               pivot := ⟨t.pivot.row + landing_distance t f, t.pivot.col⟩,
               points := t.points.map
                 (fun p => ⟨p.row + landing_distance t f, p.col⟩) }) ∧
    (∀ k, 0 ≤ k → k ≤ landing_distance t f → shift_free t f k) ∧
    (∀ d, 0 ≤ d → (∀ k, 0 ≤ k → k ≤ d → shift_free t f k) → d ≤ landing_distance t f) ∧
    (∀ p ∈ t.points.toList, landing_distance t f ≤ 39 - p.row) ∧
    (∀ p ∈ t.points.toList, ∀ row : Int, p.row < row → row ≤ 39 →
      f.cell row p.col ≠ TetriminoType.NONE → landing_distance t f ≤ row - p.row - 1) ∧
    ((∃ p ∈ t.points.toList, landing_distance t f = 39 - p.row) ∨
      ∃ p ∈ t.points.toList, ∃ row : Int, p.row < row ∧ row ≤ 39 ∧
        f.cell row p.col ≠ TetriminoType.NONE ∧ landing_distance t f = row - p.row - 1) := by
  have hfree0 : shift_free t f 0 := by
    intro p hp
    have e : p + (⟨0, 0⟩ : Point) = p := Point.add_zero p
    rw [e]; exact hfree p hp
  have hrows : ∀ p ∈ t.points.toList, 0 ≤ p.row := fun p hp => by
    have := hin p hp
    unfold in_grid at this
    omega
  refine ⟨landing_distance_nonneg t f hin, ?_,
    shift_free_of_le_landing_distance t f hin hfree0, ?_,
    landing_distance_le_floor t f, ?_, ?_⟩
  · rw [hard_drop_eq t f hin hfree0]
    simp [Point.add_def, Point4.map]
  · intro d hd hall
    by_contra hlt
    obtain ⟨p, hp, hc⟩ := not_shift_free_succ_landing_distance t f hin
    exact hc (hall (landing_distance t f + 1)
      (by have := landing_distance_nonneg t f hin; omega) (by omega) p hp)
  · intro p hp row hlow hhigh hcell
    have hp0 := hrows p hp
    have hnn : 0 ≤ row := by omega
    have hcast : ((row.toNat : Nat) : Int) = row := Int.toNat_of_nonneg hnn
    have hlt : row.toNat < 40 := by omega
    have hle := landing_distance_le_mino t f _ hlt p hp (by rw [hcast]; exact hcell)
      (by rw [hcast]; omega)
    rw [hcast] at hle
    exact hle
  · rcases landing_distance_attained_of_rows t f (fun p hp => by have := hrows p hp; omega)
      with h | ⟨row, hrow, p, hp, hc, hb, hd⟩
    · exact Or.inl h
    · exact Or.inr ⟨p, hp, row, by omega, by omega, hc, hd⟩

/-- C11 at a concrete input: the spawned I piece over the single occupied cell
`(25, 4)` drops five rows, to row 24. -/
theorem hard_drop_distance_witness :
    (∀ p ∈ (Tetrimino.spawn .I).points.toList, in_grid p.row p.col) ∧
    (Tetrimino.spawn .I).hard_drop (row_major (single_mino 25 4))
      = (true, ⟨.I, .NORTH, ⟨24, 4⟩, ⟨⟨24, 3⟩, ⟨24, 4⟩, ⟨24, 5⟩, ⟨24, 6⟩⟩⟩) :=
  ⟨by decide,
   (hard_drop_distance (Tetrimino.spawn .I) (row_major (single_mino 25 4))
      (by decide) (by decide)).2.1.trans (by decide)⟩

/-! ## Row clearing (C12, C13, C19) -/

theorem cell_set (f : Playfield) (r c : Int) (v : TetriminoType) (r' c' : Int) :
    (f.set r c v).cell r' c' = if r' = r ∧ c' = c then v else f.cell r' c' := by
  unfold Playfield.set Playfield.cell
  by_cases h : in_grid r c <;> by_cases h' : in_grid r' c'
  · have h2 := h'
    unfold in_grid at h2
    have e1 : ((r'.toNat : Nat) : Int) = r' := Int.toNat_of_nonneg h2.1
    have e2 : ((c'.toNat : Nat) : Int) = c' := Int.toNat_of_nonneg h2.2.2.1
    simp only [if_pos h, dif_pos h', e1, e2]
  · have hne : ¬ (r' = r ∧ c' = c) := fun ⟨e1, e2⟩ => h' (by rw [e1, e2]; exact h)
    simp only [if_pos h, dif_neg h', if_neg hne]
  · have hne : ¬ (r' = r ∧ c' = c) := fun ⟨e1, e2⟩ => h (by rw [← e1, ← e2]; exact h')
    simp only [if_neg h, dif_pos h', if_neg hne]
  · simp only [if_neg h, dif_neg h']

theorem copy_row_fold_cell (f : Playfield) (rowc : Int) (n : Nat) (r c : Int) :
    ((List.range n).foldl
        (fun playfield colc =>
          playfield.set rowc (colc : Int) (playfield.cell (rowc - 1) (colc : Int))) f).cell r c
      = if r = rowc ∧ 0 ≤ c ∧ c < n then f.cell (rowc - 1) c else f.cell r c := by
  induction n generalizing r c with
  | zero =>
    have hne : ¬ (r = rowc ∧ 0 ≤ c ∧ c < ((0 : Nat) : Int)) := by
      rintro ⟨_, h1, h2⟩; omega
    simp only [List.range_zero, List.foldl_nil, if_neg hne]
  | succ n ih =>
    rw [List.range_succ, List.foldl_append]
    simp only [List.foldl_cons, List.foldl_nil]
    rw [cell_set, ih, ih]
    have hself : ¬ (rowc - 1 = rowc ∧ 0 ≤ (n : Int) ∧ (n : Int) < n) := by
      rintro ⟨h, _⟩; omega
    rw [if_neg hself]
    by_cases h1 : r = rowc ∧ c = (n : Int)
    · rw [if_pos h1, if_pos ⟨h1.1, by omega, by push_cast; omega⟩, h1.2]
    · rw [if_neg h1]
      by_cases h2 : r = rowc ∧ 0 ≤ c ∧ c < (n : Int)
      · rw [if_pos h2, if_pos ⟨h2.1, h2.2.1, by push_cast; omega⟩]
      · rw [if_neg h2, if_neg]
        rintro ⟨e, h3, h4⟩
        push_cast at h4
        by_cases h5 : c = (n : Int)
        · exact h1 ⟨e, h5⟩
        · exact h2 ⟨e, h3, by omega⟩

theorem copy_row_cell (f : Playfield) (rowc : Int) (r c : Int) :
    (copy_row f rowc).cell r c
      = if r = rowc ∧ 0 ≤ c ∧ c < 10 then f.cell (rowc - 1) c else f.cell r c :=
  copy_row_fold_cell f rowc 10 r c

/-- The shift of `clear_rows` at row `n`: the rows `1..n` take the content of
the row above them, every other cell keeps its value — row 0 included. -/
theorem lower_rows_cell (n : Nat) (f : Playfield) (r c : Int) :
    (lower_rows n f).cell r c
      = if 1 ≤ r ∧ r ≤ n ∧ 0 ≤ c ∧ c < 10 then f.cell (r - 1) c else f.cell r c := by
  induction n generalizing f with
  | zero =>
    have hne : ¬ (1 ≤ r ∧ r ≤ ((0 : Nat) : Int) ∧ 0 ≤ c ∧ c < 10) := by
      rintro ⟨h1, h2, _⟩; omega
    simp only [lower_rows, if_neg hne]
  | succ n ih =>
    simp only [lower_rows]
    rw [ih, copy_row_cell, copy_row_cell]
    by_cases h1 : 1 ≤ r ∧ r ≤ (n : Int) ∧ 0 ≤ c ∧ c < 10
    · have hne : ¬ (r - 1 = ((n + 1 : Nat) : Int) ∧ 0 ≤ c ∧ c < 10) := by
        rintro ⟨h, _⟩; push_cast at h; omega
      rw [if_pos h1, if_neg hne, if_pos ⟨h1.1, by push_cast; omega, h1.2.2⟩]
    · rw [if_neg h1]
      by_cases h2 : r = ((n + 1 : Nat) : Int) ∧ 0 ≤ c ∧ c < 10
      · rw [if_pos h2, if_pos ⟨by rw [h2.1]; push_cast; omega, by rw [h2.1], h2.2⟩, h2.1]
      · rw [if_neg h2, if_neg]
        rintro ⟨h3, h4, h5⟩
        by_cases h6 : r = ((n + 1 : Nat) : Int)
        · exact h2 ⟨h6, h5⟩
        · exact h1 ⟨h3, by push_cast at h4 h6; omega, h5⟩

theorem row_full_iff (f : Playfield) (r : Int) :
    row_full f r = true ↔ ∀ c : Int, 0 ≤ c → c < 10 → f.cell r c ≠ TetriminoType.NONE := by
  unfold row_full
  simp only [List.all_eq_true, List.mem_range, decide_eq_true_eq]
  constructor
  · intro h c h0 h1
    have := h c.toNat (by omega)
    rwa [Int.toNat_of_nonneg h0] at this
  · intro h n hn
    exact h n (by omega) (by omega)

theorem row_full_congr (f g : Playfield) (r r' : Int)
    (h : ∀ c : Int, 0 ≤ c → c < 10 → f.cell r c = g.cell r' c) :
    row_full f r = row_full g r' := by
  rw [Bool.eq_iff_iff, row_full_iff, row_full_iff]
  constructor
  · intro hf c h0 h1; rw [← h c h0 h1]; exact hf c h0 h1
  · intro hg c h0 h1; rw [h c h0 h1]; exact hg c h0 h1

theorem row_full_lower_rows_shifted (n : Nat) (f : Playfield) (r : Int)
    (h1 : 1 ≤ r) (h2 : r ≤ n) : row_full (lower_rows n f) r = row_full f (r - 1) := by
  apply row_full_congr
  intro c h0 h10
  rw [lower_rows_cell, if_pos ⟨h1, h2, h0, h10⟩]

theorem row_full_lower_rows_kept (n : Nat) (f : Playfield) (r : Int)
    (h : r < 1 ∨ (n : Int) < r) : row_full (lower_rows n f) r = row_full f r := by
  apply row_full_congr
  intro c h0 h10
  rw [lower_rows_cell, if_neg]
  rintro ⟨h1, h2, _⟩
  omega

theorem clear_rows_loop_succ (fuel row : Nat) (f : Playfield) :
    clear_rows_loop (fuel + 1) row f =
      if row > 0 then
        if row_full f (row : Int) then clear_rows_loop fuel row (lower_rows row f)
        else clear_rows_loop fuel (row - 1) f
      else some f := by
  simp only [clear_rows_loop, Nat.add_sub_cancel]

/-- With rows 0 and 1 both full the scan never leaves: the shift at row 1 copies
the full row 0 into row 1 again. -/
theorem clear_rows_loop_none_of_top_full (fuel : Nat) :
    ∀ (row : Nat) (f : Playfield), 1 ≤ row → row_full f 0 = true → row_full f 1 = true →
      clear_rows_loop fuel row f = none := by
  induction fuel with
  | zero => intro row f _ _ _; rfl
  | succ fuel ih =>
    intro row f hrow h0 h1
    rw [clear_rows_loop_succ, if_pos (by omega)]
    by_cases hfull : row_full f (row : Int) = true
    · rw [if_pos hfull]
      apply ih row _ hrow
      · rw [row_full_lower_rows_kept row f 0 (Or.inl (by omega))]; exact h0
      · rw [row_full_lower_rows_shifted row f 1 (le_refl _) (by omega)]; exact h0
    · rw [if_neg hfull]
      have hne : row ≠ 1 := by
        rintro rfl
        exact hfull h1
      exact ih (row - 1) f (by omega) h0 h1

theorem clear_rows_loop_mono (fuel : Nat) :
    ∀ (row : Nat) (f f' : Playfield), clear_rows_loop fuel row f = some f' →
      ∀ fuel', fuel ≤ fuel' → clear_rows_loop fuel' row f = some f' := by
  induction fuel with
  | zero => intro row f f' h; simp [clear_rows_loop] at h
  | succ fuel ih =>
    intro row f f' h fuel' hle
    obtain ⟨m, rfl⟩ : ∃ m, fuel' = m + 1 := ⟨fuel' - 1, by omega⟩
    rw [clear_rows_loop_succ] at h ⊢
    by_cases hrow : row > 0
    · rw [if_pos hrow] at h ⊢
      by_cases hfull : row_full f (row : Int) = true
      · rw [if_pos hfull] at h ⊢
        exact ih _ _ _ h m (by omega)
      · rw [if_neg hfull] at h ⊢
        exact ih _ _ _ h m (by omega)
    · rw [if_neg hrow] at h ⊢
      exact h

/-- The scan standing at `row` writes to the rows `1..row` only. -/
theorem clear_rows_loop_keeps (fuel : Nat) :
    ∀ (row : Nat) (f f' : Playfield), clear_rows_loop fuel row f = some f' →
      ∀ r c : Int, r < 1 ∨ (row : Int) < r → f'.cell r c = f.cell r c := by
  induction fuel with
  | zero => intro row f f' h; simp [clear_rows_loop] at h
  | succ fuel ih =>
    intro row f f' h r c hr
    rw [clear_rows_loop_succ] at h
    by_cases hrow : row > 0
    · rw [if_pos hrow] at h
      by_cases hfull : row_full f (row : Int) = true
      · rw [if_pos hfull] at h
        rw [ih _ _ _ h r c hr, lower_rows_cell, if_neg]
        rintro ⟨h1, h2, _⟩
        omega
      · rw [if_neg hfull] at h
        exact ih _ _ _ h r c (by omega)
    · rw [if_neg hrow] at h
      rw [← Option.some.inj h]

theorem full_count_from_top_succ (f : Playfield) (n : Nat) :
    full_count_from_top f (n + 1)
      = (if row_full f 0 then 1 else 0) + full_count f n := by
  induction n with
  | zero => simp [full_count_from_top, full_count]
  | succ n ih =>
    rw [full_count_from_top, ih, full_count]
    push_cast
    omega

theorem full_count_lower_rows (row : Nat) (f : Playfield) (n : Nat) (hn : n ≤ row) :
    full_count (lower_rows row f) n = full_count_from_top f n := by
  induction n with
  | zero => rfl
  | succ n ih =>
    rw [full_count, full_count_from_top, ih (by omega),
      row_full_lower_rows_shifted row f _ (by push_cast; omega) (by push_cast; omega)]
    have e : (((n + 1 : Nat) : Int) - 1) = (n : Int) := by push_cast; omega
    rw [e]

/-- A shift at a full row `row ≥ 1`, with row 0 not full, takes one from the
number of full rows among `1..row`. -/
theorem full_count_after_shift (row : Nat) (f : Playfield) (hrow : 1 ≤ row)
    (hfull : row_full f (row : Int) = true) (h0 : row_full f 0 = false) :
    full_count (lower_rows row f) row + 1 = full_count f row := by
  obtain ⟨m, rfl⟩ : ∃ m, row = m + 1 := ⟨row - 1, by omega⟩
  rw [full_count_lower_rows (m + 1) f (m + 1) (le_refl _), full_count_from_top_succ,
    full_count, if_pos hfull]
  simp [h0]

theorem full_count_above (row : Nat) (f : Playfield) (n : Nat) :
    full_count (lower_rows row f) (row + n) + full_count f row
      = full_count f (row + n) + full_count (lower_rows row f) row := by
  induction n with
  | zero => simp only [Nat.add_zero]; omega
  | succ n ih =>
    rw [← Nat.add_assoc, full_count, full_count,
      row_full_lower_rows_kept row f _ (Or.inr (by push_cast; omega))]
    omega

theorem full_count_le (f : Playfield) (n : Nat) : full_count f n ≤ n := by
  induction n with
  | zero => simp [full_count]
  | succ n ih =>
    rw [full_count]
    split_ifs <;> omega

theorem clear_rows_loop_terminates (fuel : Nat) :
    ∀ (row : Nat) (f : Playfield), row_full f 0 = false →
      (∀ r : Nat, row < r → r ≤ 39 → row_full f (r : Int) = false) →
      full_count f row + row + 1 ≤ fuel →
      ∃ f', clear_rows_loop fuel row f = some f' ∧
        ∀ r : Nat, 1 ≤ r → r ≤ 39 → row_full f' (r : Int) = false := by
  induction fuel with
  | zero => intro row f _ _ h; omega
  | succ fuel ih =>
    intro row f h0 habove hfuel
    rw [clear_rows_loop_succ]
    by_cases hrow : row > 0
    · rw [if_pos hrow]
      by_cases hfull : row_full f (row : Int) = true
      · rw [if_pos hfull]
        have hcount := full_count_after_shift row f (by omega) hfull h0
        apply ih row (lower_rows row f)
        · rw [row_full_lower_rows_kept row f 0 (Or.inl (by omega))]; exact h0
        · intro r hr h39
          rw [row_full_lower_rows_kept row f _ (Or.inr (by omega))]
          exact habove r hr h39
        · omega
      · rw [if_neg hfull]
        obtain ⟨m, rfl⟩ : ∃ m, row = m + 1 := ⟨row - 1, by omega⟩
        have hcount : full_count f (m + 1) = full_count f m := by
          rw [full_count, if_neg hfull]; rfl
        apply ih m f h0
        · intro r hr h39
          by_cases e : r = m + 1
          · rw [e]; simpa using hfull
          · exact habove r (by omega) h39
        · omega
    · rw [if_neg hrow]
      exact ⟨f, rfl, fun r h1 h39 => habove r (by omega) h39⟩

theorem clear_rows_loop_result (f : Playfield) (h0 : row_full f 0 = false) :
    ∃ f', (∀ fuel, 79 ≤ fuel → clear_rows_loop fuel 39 f = some f') ∧
      (∀ r : Nat, 1 ≤ r → r ≤ 39 → row_full f' (r : Int) = false) ∧
      ∀ r c : Int, r < 1 ∨ 39 < r → f'.cell r c = f.cell r c := by
  obtain ⟨f', hrun, hnone⟩ := clear_rows_loop_terminates 79 39 f h0
    (fun r h1 h2 => by omega) (by have := full_count_le f 39; omega)
  exact ⟨f', fun fuel hfuel => clear_rows_loop_mono 79 39 f f' hrun fuel hfuel, hnone,
    fun r c hr => clear_rows_loop_keeps 79 39 f f' hrun r c hr⟩

theorem cell_eq_grid (f : Playfield) (r : Fin 40) (c : Fin 10) :
    f.cell (r.val : Int) (c.val : Int) = f.grid r c := by
  have h : in_grid (r.val : Int) (c.val : Int) := by
    unfold in_grid
    have := r.isLt
    have := c.isLt
    omega
  unfold Playfield.cell
  rw [dif_pos h]
  simp

/-- With row 0 not full, row 39 full and row 38 not full, `clear_rows` returns
and row 39 then holds what row 38 held. -/
theorem clear_rows_loop_bottom_row (f : Playfield) (h0 : row_full f 0 = false)
    (h39 : row_full f 39 = true) (h38 : row_full f 38 = false) :
    ∃ f', (∀ fuel, 79 ≤ fuel → clear_rows_loop fuel 39 f = some f') ∧
      ∀ c : Int, 0 ≤ c → c < 10 → f'.cell 39 c = f.cell 38 c := by
  obtain ⟨f', hrun, _, _⟩ := clear_rows_loop_result f h0
  refine ⟨f', hrun, fun c hc0 hc10 => ?_⟩
  have h := hrun 79 (le_refl _)
  have h39' : row_full f ((39 : Nat) : Int) = true := h39
  rw [clear_rows_loop_succ, if_pos (by omega), if_pos h39', clear_rows_loop_succ,
    if_pos (by omega)] at h
  have hnot : ¬ row_full (lower_rows 39 f) ((39 : Nat) : Int) = true := by
    rw [row_full_lower_rows_shifted 39 f _ (by norm_num) (by norm_num)]
    have e : (((39 : Nat) : Int) - 1) = 38 := by norm_num
    rw [e, h38]
    simp
  rw [if_neg hnot] at h
  rw [clear_rows_loop_keeps 77 38 _ f' h 39 c (Or.inr (by norm_num)), lower_rows_cell,
    if_pos ⟨by norm_num, by norm_num, hc0, hc10⟩]
  norm_num

/-- C19. `clear_rows` terminates and removes every full row: for every game
whose row 0 is not completely full the scan ends within 79 passes, whatever
larger bound is allowed, with the other members of the game untouched, and
afterwards none of the rows `1..39` is full.  (It ends because a shift at a full
row `1 ≤ row ≤ 39`, row 0 not being full, takes one from the number of full
rows among `1..39`.) -/
theorem clear_rows_terminates (game : Game) (h0 : row_full game.playfield 0 = false) :
    (∃ playfield, (∀ fuel, 79 ≤ fuel →
          game.clear_rows fuel = some { game with playfield := playfield }) ∧
        ∀ r : Nat, 1 ≤ r → r ≤ 39 → row_full playfield (r : Int) = false) ∧
    (∀ (row : Nat) (f : Playfield), 1 ≤ row → row ≤ 39 → row_full f (row : Int) = true →
        row_full f 0 = false → full_count (lower_rows row f) 39 + 1 = full_count f 39) := by
  constructor
  · obtain ⟨f', hrun, hnone, _⟩ := clear_rows_loop_result game.playfield h0
    refine ⟨f', fun fuel hfuel => ?_, hnone⟩
    unfold Game.clear_rows
    rw [hrun fuel hfuel]
  · intro row f h1 h39 hfull hf0
    have ha := full_count_above row f (39 - row)
    have hb := full_count_after_shift row f h1 hfull hf0
    have e : row + (39 - row) = 39 := by omega
    rw [e] at ha
    omega

/-- C19 at a concrete input: a game whose playfield has row 39 full and one
occupied cell in row 0. -/
theorem clear_rows_terminates_witness :
    row_full (row_major bottom_full_top_mino) 0 = false ∧
    ∃ playfield, (∀ fuel, 79 ≤ fuel →
        (⟨row_major bottom_full_top_mino, Tetrimino.spawn .I, idle_bag, 1⟩ : Game).clear_rows fuel
          = some ⟨playfield, Tetrimino.spawn .I, idle_bag, 1⟩) ∧
      ∀ r : Nat, 1 ≤ r → r ≤ 39 → row_full playfield (r : Int) = false :=
  ⟨by decide,
   (clear_rows_terminates ⟨row_major bottom_full_top_mino, Tetrimino.spawn .I, idle_bag, 1⟩
      (by decide)).1⟩

/-- C12, evaluated on the code where it fails: with row 39 full, row 38 not full
and row 0 full, `clear_rows` does not return, however many passes of its loop
are allowed.  The shift never empties row 0, so row 1 is a full row again after
every shift. -/
theorem clear_rows_never_returns :
    row_full (row_major top_and_bottom_full) 39 = true ∧
    row_full (row_major top_and_bottom_full) 38 = false ∧
    ∀ fuel, (⟨row_major top_and_bottom_full, Tetrimino.spawn .I, idle_bag, 1⟩ : Game).clear_rows
      fuel = none := by
  refine ⟨by decide, by decide, fun fuel => ?_⟩
  unfold Game.clear_rows
  cases fuel with
  | zero => rfl
  | succ fuel =>
    have h39 : row_full (row_major top_and_bottom_full) ((39 : Nat) : Int) = true := by decide
    show (match clear_rows_loop (fuel + 1) 39 (row_major top_and_bottom_full) with
      | none => none
      | some playfield => some _) = none
    rw [clear_rows_loop_succ, if_pos (by omega), if_pos h39,
      clear_rows_loop_none_of_top_full fuel 39 _ (by omega)
        (by rw [row_full_lower_rows_kept 39 _ 0 (Or.inl (by omega))]; decide)
        (by rw [row_full_lower_rows_shifted 39 _ 1 (le_refl _) (by norm_num)]; decide)]

/-- C13, evaluated on the code where it fails: with row 39 full, row 38 not full
and the cell `(0, 0)` occupied, `clear_rows` returns and the cell `(0, 0)` is
still occupied: the shift writes to the rows `1..row` only. -/
theorem clear_rows_keeps_top_row :
    row_full (row_major bottom_full_top_mino) 39 = true ∧
    row_full (row_major bottom_full_top_mino) 38 = false ∧
    ∃ playfield, (∀ fuel, 79 ≤ fuel →
        (⟨row_major bottom_full_top_mino, Tetrimino.spawn .I, idle_bag, 1⟩ : Game).clear_rows fuel
          = some ⟨playfield, Tetrimino.spawn .I, idle_bag, 1⟩) ∧
      playfield.grid 0 0 = TetriminoType.O := by
  refine ⟨by decide, by decide, ?_⟩
  obtain ⟨f', hrun, _, hkeep⟩ :=
    clear_rows_loop_result (row_major bottom_full_top_mino) (by decide)
  refine ⟨f', fun fuel hfuel => ?_, ?_⟩
  · unfold Game.clear_rows
    rw [hrun fuel hfuel]
  · have h := hkeep 0 0 (Or.inl (by norm_num))
    have e := cell_eq_grid f' 0 0
    simp only [Fin.val_zero, Nat.cast_zero] at e
    rw [← e, h]
    decide

/-! ## End-to-end scenario (C14) -/

theorem foldl_set_cell (v : TetriminoType) (l : List Point) :
    ∀ (f : Playfield) (r c : Int),
      (l.foldl (fun playfield p => playfield.set p.row p.col v) f).cell r c
        = if ∃ p ∈ l, p.row = r ∧ p.col = c then v else f.cell r c := by
  induction l with
  | nil => intro f r c; simp
  | cons q l ih =>
    intro f r c
    rw [List.foldl_cons, ih, cell_set]
    by_cases h1 : ∃ p ∈ l, p.row = r ∧ p.col = c
    · have h2 : ∃ p ∈ q :: l, p.row = r ∧ p.col = c := by
        obtain ⟨p, hp, hrc⟩ := h1
        exact ⟨p, List.mem_cons_of_mem _ hp, hrc⟩
      rw [if_pos h1, if_pos h2]
    · rw [if_neg h1]
      by_cases h3 : r = q.row ∧ c = q.col
      · rw [if_pos h3, if_pos ⟨q, List.mem_cons_self _ _, h3.1.symm, h3.2.symm⟩]
      · rw [if_neg h3, if_neg]
        rintro ⟨p, hp, hr, hc⟩
        rcases List.mem_cons.1 hp with e | hp
        · exact h3 ⟨by rw [← hr, e], by rw [← hc, e]⟩
        · exact h1 ⟨p, hp, hr, hc⟩

theorem lock_cell (game : Game) (r c : Int) :
    game.lock_active_tetrimino.playfield.cell r c
      = if ∃ p ∈ game.active_tetrimino.points.toList, p.row = r ∧ p.col = c then
          game.active_tetrimino.type
        else game.playfield.cell r c :=
  foldl_set_cell _ _ _ r c

theorem clear_rows_loop_of_no_full (fuel : Nat) :
    ∀ (row : Nat) (f : Playfield),
      (∀ r : Nat, 1 ≤ r → r ≤ row → row_full f (r : Int) = false) → row + 1 ≤ fuel →
      clear_rows_loop fuel row f = some f := by
  induction fuel with
  | zero => intro row f _ h; omega
  | succ fuel ih =>
    intro row f hno hfuel
    rw [clear_rows_loop_succ]
    by_cases hrow : row > 0
    · have hfull : ¬ row_full f (row : Int) = true := by
        rw [hno row (by omega) (le_refl _)]; simp
      rw [if_pos hrow, if_neg hfull]
      exact ih (row - 1) f (fun r h1 h2 => hno r h1 (by omega)) (by omega)
    · rw [if_neg hrow]

theorem scenario_cell (beyond : Int → Int → TetriminoType) (r c : Int)
    (hr : 0 ≤ r) (hr39 : r ≤ 39) (hc : 0 ≤ c) (hc10 : c < 10) :
    (⟨scenario_grid, beyond⟩ : Playfield).cell r c
      = if r = 39 ∧ (c < 3 ∨ 6 < c) then TetriminoType.O else TetriminoType.NONE := by
  have h : in_grid r c := ⟨hr, by omega, hc, hc10⟩
  unfold Playfield.cell
  rw [dif_pos h]
  simp only [scenario_grid]
  have e1 : r.toNat = 39 ↔ r = 39 := by omega
  have e2 : (c.toNat < 3 ∨ 6 < c.toNat) ↔ (c < 3 ∨ 6 < c) := by omega
  simp only [e1, e2]

theorem scenario_spawn_cells :
    ∀ p ∈ (Tetrimino.spawn .I).points.toList, p.row = 19 ∧ 3 ≤ p.col ∧ p.col ≤ 6 := by
  decide

theorem scenario_landing_distance (beyond : Int → Int → TetriminoType) :
    landing_distance (Tetrimino.spawn .I) ⟨scenario_grid, beyond⟩ = 20 := by
  rcases landing_distance_attained_of_rows (Tetrimino.spawn .I) ⟨scenario_grid, beyond⟩
      (fun p hp => by have := scenario_spawn_cells p hp; omega)
    with ⟨p, hp, hd⟩ | ⟨row, hrow, p, hp, hc, hb, hd⟩
  · have := scenario_spawn_cells p hp
    omega
  · exfalso
    have hcells := scenario_spawn_cells p hp
    rw [scenario_cell beyond row p.col (by omega) (by omega) (by omega) (by omega),
      if_neg (by omega)] at hc
    exact hc rfl

theorem scenario_hard_drop (beyond : Int → Int → TetriminoType) :
    (Tetrimino.spawn .I).hard_drop ⟨scenario_grid, beyond⟩
      = (true, ⟨.I, .NORTH, ⟨39, 4⟩, ⟨⟨39, 3⟩, ⟨39, 4⟩, ⟨39, 5⟩, ⟨39, 6⟩⟩⟩) := by
  have hcells := scenario_spawn_cells
  rw [hard_drop_eq (Tetrimino.spawn .I) ⟨scenario_grid, beyond⟩
    (fun p hp => by have := hcells p hp; unfold in_grid; omega)
    (fun p hp => by
      have := hcells p hp
      show check_collision (p + ⟨0, 0⟩) _ = 0
      rw [check_collision_eq_zero_iff]
      simp only [Point.add_def, add_zero]
      refine ⟨by omega, by omega, by omega, ?_⟩
      rw [scenario_cell beyond p.row p.col (by omega) (by omega) (by omega) (by omega),
        if_neg (by omega)]),
    scenario_landing_distance]
  decide

theorem landed_cells :
    ∀ p ∈ (⟨.I, .NORTH, ⟨39, 4⟩, ⟨⟨39, 3⟩, ⟨39, 4⟩, ⟨39, 5⟩, ⟨39, 6⟩⟩⟩ : Tetrimino).points.toList,
      p.row = 39 ∧ 3 ≤ p.col ∧ p.col ≤ 6 := by
  decide

theorem scenario_locked_cell (beyond : Int → Int → TetriminoType) (bag : Bag) (level : Int)
    (r c : Int) (hr : 0 ≤ r) (hr39 : r ≤ 39) (hc : 0 ≤ c) (hc10 : c < 10) :
    (Game.lock_active_tetrimino ⟨⟨scenario_grid, beyond⟩,
        ⟨.I, .NORTH, ⟨39, 4⟩, ⟨⟨39, 3⟩, ⟨39, 4⟩, ⟨39, 5⟩, ⟨39, 6⟩⟩⟩, bag, level⟩).playfield.cell r c
      = if r = 39 then (if c < 3 ∨ 6 < c then TetriminoType.O else TetriminoType.I)
        else TetriminoType.NONE := by
  rw [lock_cell]
  simp only []
  by_cases hex : ∃ p ∈ (⟨.I, .NORTH, ⟨39, 4⟩, ⟨⟨39, 3⟩, ⟨39, 4⟩, ⟨39, 5⟩, ⟨39, 6⟩⟩⟩ :
      Tetrimino).points.toList, p.row = r ∧ p.col = c
  · obtain ⟨p, hp, hpr, hpc⟩ := hex
    have := landed_cells p hp
    rw [if_pos ⟨p, hp, hpr, hpc⟩, if_pos (by omega), if_neg (by omega)]
  · rw [if_neg hex, scenario_cell beyond r c hr hr39 hc hc10]
    by_cases h39 : r = 39
    · have hout : c < 3 ∨ 6 < c := by
        by_contra hin
        apply hex
        have hc3 : 3 ≤ c := by omega
        have hc6 : c ≤ 6 := by omega
        subst h39
        interval_cases c
        · exact ⟨⟨39, 3⟩, by decide, rfl, rfl⟩
        · exact ⟨⟨39, 4⟩, by decide, rfl, rfl⟩
        · exact ⟨⟨39, 5⟩, by decide, rfl, rfl⟩
        · exact ⟨⟨39, 6⟩, by decide, rfl, rfl⟩
      rw [if_pos ⟨h39, hout⟩, if_pos h39, if_pos hout]
    · rw [if_neg (fun h => h39 h.1), if_neg h39]

/-- C14. End-to-end scenario: with the freshly spawned I piece active on a
playfield that is empty except for the columns 0, 1, 2, 7, 8, 9 of row 39,
`try_command(HARD_DROP)` returns `true` and leaves the piece on
`(39,3) (39,4) (39,5) (39,6)`, facing NORTH; `lock_active_tetrimino` followed
by `clear_rows` then returns (within 79 passes of the scan) and leaves every
cell of the grid `NONE`. -/
theorem end_to_end_scenario (tables : SrsTables) (storage beyond : Int → Int → TetriminoType)
    (bag : Bag) (level : Int) :
    Game.try_command tables storage ⟨⟨scenario_grid, beyond⟩, Tetrimino.spawn .I, bag, level⟩
        .HARD_DROP
      = some (true, ⟨⟨scenario_grid, beyond⟩,
          ⟨.I, .NORTH, ⟨39, 4⟩, ⟨⟨39, 3⟩, ⟨39, 4⟩, ⟨39, 5⟩, ⟨39, 6⟩⟩⟩, bag, level⟩) ∧
    ∃ playfield,
      (∀ fuel, 79 ≤ fuel →
        (Game.lock_active_tetrimino ⟨⟨scenario_grid, beyond⟩,
            ⟨.I, .NORTH, ⟨39, 4⟩, ⟨⟨39, 3⟩, ⟨39, 4⟩, ⟨39, 5⟩, ⟨39, 6⟩⟩⟩, bag, level⟩).clear_rows fuel
          = some ⟨playfield,
              ⟨.I, .NORTH, ⟨39, 4⟩, ⟨⟨39, 3⟩, ⟨39, 4⟩, ⟨39, 5⟩, ⟨39, 6⟩⟩⟩, bag, level⟩) ∧
      ∀ (r : Fin 40) (c : Fin 10), playfield.grid r c = TetriminoType.NONE := by
  constructor
  · simp only [Game.try_command, scenario_hard_drop]
  · have hcell := scenario_locked_cell beyond bag level
    generalize hlocked : Game.lock_active_tetrimino ⟨⟨scenario_grid, beyond⟩,
      ⟨.I, .NORTH, ⟨39, 4⟩, ⟨⟨39, 3⟩, ⟨39, 4⟩, ⟨39, 5⟩, ⟨39, 6⟩⟩⟩, bag, level⟩ = locked at hcell ⊢
    have hmembers : locked.active_tetrimino
          = ⟨.I, .NORTH, ⟨39, 4⟩, ⟨⟨39, 3⟩, ⟨39, 4⟩, ⟨39, 5⟩, ⟨39, 6⟩⟩⟩ ∧
        locked.bag = bag ∧ locked.level = level := by
      rw [← hlocked]; exact ⟨rfl, rfl, rfl⟩
    have hfull : row_full locked.playfield ((39 : Nat) : Int) = true := by
      rw [row_full_iff]
      intro c hc hc10
      rw [Nat.cast_ofNat, hcell 39 c (by norm_num) (by norm_num) hc hc10, if_pos rfl]
      split_ifs <;> simp
    have hshift : ∀ r c : Int, 0 ≤ r → r ≤ 39 → 0 ≤ c → c < 10 →
        (lower_rows 39 locked.playfield).cell r c = TetriminoType.NONE := by
      intro r c hr hr39 hc hc10
      rw [lower_rows_cell]
      by_cases h1 : 1 ≤ r
      · rw [if_pos ⟨h1, by norm_num; exact hr39, hc, hc10⟩,
          hcell (r - 1) c (by omega) (by omega) hc hc10, if_neg (by omega)]
      · rw [if_neg (fun h => h1 h.1), hcell r c hr hr39 hc hc10, if_neg (by omega)]
    have hno : ∀ r : Nat, 1 ≤ r → r ≤ 39 →
        row_full (lower_rows 39 locked.playfield) (r : Int) = false := by
      intro r h1 h39
      rw [Bool.eq_false_iff, Ne, row_full_iff]
      intro hall
      exact hall 0 (le_refl _) (by norm_num)
        (hshift r 0 (by omega) (by omega) (le_refl _) (by norm_num))
    refine ⟨lower_rows 39 locked.playfield, fun fuel hfuel => ?_, fun r c => ?_⟩
    · obtain ⟨m, rfl⟩ : ∃ m, fuel = m + 1 := ⟨fuel - 1, by omega⟩
      unfold Game.clear_rows
      rw [clear_rows_loop_succ, if_pos (by omega), if_pos hfull,
        clear_rows_loop_of_no_full m 39 _ hno (by omega)]
      simp only [hmembers.1, hmembers.2.1, hmembers.2.2]
    · rw [← cell_eq_grid]
      have := r.isLt
      have := c.isLt
      exact hshift _ _ (by omega) (by omega) (by omega) (by omega)

/-! ## Bag (C15, C16) -/

theorem seven_tetriminos_length : seven_tetriminos.length = 7 := rfl

theorem pops_append (shuffle : Shuffle) (m n : Nat) :
    ∀ (bag bag1 bag2 : Bag) (ts1 ts2 : List Tetrimino),
      Bag.pops shuffle m bag = some (ts1, bag1) → Bag.pops shuffle n bag1 = some (ts2, bag2) →
      Bag.pops shuffle (m + n) bag = some (ts1 ++ ts2, bag2) := by
  induction m with
  | zero =>
    intro bag bag1 bag2 ts1 ts2 h1 h2
    simp only [Bag.pops, Option.some.injEq, Prod.mk.injEq] at h1
    obtain ⟨rfl, rfl⟩ := h1
    simpa using h2
  | succ m ih =>
    intro bag bag1 bag2 ts1 ts2 h1 h2
    have e : m + 1 + n = (m + n) + 1 := by omega
    rw [e]
    simp only [Bag.pops] at h1 ⊢
    cases hp : bag.pop shuffle with
    | none => rw [hp] at h1; simp at h1
    | some r =>
      obtain ⟨next, bag'⟩ := r
      rw [hp] at h1
      simp only [] at h1 ⊢
      cases hq : Bag.pops shuffle m bag' with
      | none => rw [hq] at h1; simp at h1
      | some r2 =>
        obtain ⟨rest, bag''⟩ := r2
        rw [hq] at h1
        simp only [Option.some.injEq, Prod.mk.injEq] at h1
        obtain ⟨rfl, rfl⟩ := h1
        rw [ih bag' bag'' bag2 rest ts2 hq h2]
        rfl

theorem list_of_length_seven {α : Type} (l : List α) (h : l.length = 7) :
    ∃ a b c d e f g, l = [a, b, c, d, e, f, g] := by
  rcases l with _ | ⟨a, _ | ⟨b, _ | ⟨c, _ | ⟨d, _ | ⟨e, _ | ⟨f, _ | ⟨g, _ | ⟨x, l⟩⟩⟩⟩⟩⟩⟩⟩ <;>
    simp at h
  exact ⟨a, b, c, d, e, f, g, rfl⟩

theorem pops_seven (shuffle : Shuffle) (a b c d e f h : Tetrimino) (g : Nat)
    (next : List Tetrimino) (g' : Nat) (hs : shuffle g seven_tetriminos = (next, g'))
    (hn : next.length = 7) :
    Bag.pops shuffle 7 ⟨[a, b, c, d, e, f, h], g⟩ = some ([a, b, c, d, e, f, h], ⟨next, g'⟩) := by
  simp [Bag.pops, Bag.pop, Bag.extend_queue, hs, hn]

/-- Seven pops from a Bag whose queue is one batch return that batch in order
and leave the next batch as the queue. -/
theorem pops_batch (shuffle : Shuffle) (hperm : ∀ g l, ((shuffle g l).1).Perm l) (bag : Bag)
    (hq : bag.tetrimino_queue.Perm seven_tetriminos) :
    ∃ bag', Bag.pops shuffle 7 bag = some (bag.tetrimino_queue, bag') ∧
      bag'.tetrimino_queue.Perm seven_tetriminos := by
  obtain ⟨queue, g⟩ := bag
  have hlen : queue.length = 7 := by
    rw [hq.length_eq, seven_tetriminos_length]
  have hnext := hperm g seven_tetriminos
  have hnlen : (shuffle g seven_tetriminos).1.length = 7 := by
    rw [hnext.length_eq, seven_tetriminos_length]
  obtain ⟨a, b, c, d, e, f, h, rfl⟩ := list_of_length_seven queue hlen
  exact ⟨⟨(shuffle g seven_tetriminos).1, (shuffle g seven_tetriminos).2⟩,
    pops_seven shuffle a b c d e f h g _ _ rfl hnlen, hnext⟩

theorem new_bag_queue (shuffle : Shuffle) (hperm : ∀ g l, ((shuffle g l).1).Perm l)
    (seed : Nat) : (Bag.new shuffle seed).tetrimino_queue.Perm seven_tetriminos := by
  simp only [Bag.new, Bag.extend_queue, List.nil_append]
  exact hperm seed seven_tetriminos

theorem pops_batches (shuffle : Shuffle) (hperm : ∀ g l, ((shuffle g l).1).Perm l)
    (seed : Nat) (k : Nat) :
    ∃ ts bag', Bag.pops shuffle (7 * k) (Bag.new shuffle seed) = some (ts, bag') ∧
      ts.length = 7 * k ∧ bag'.tetrimino_queue.Perm seven_tetriminos := by
  induction k with
  | zero => exact ⟨[], _, rfl, rfl, new_bag_queue shuffle hperm seed⟩
  | succ k ih =>
    obtain ⟨ts, bag', hrun, hlen, hq⟩ := ih
    obtain ⟨bag'', hrun7, hq'⟩ := pops_batch shuffle hperm bag' hq
    refine ⟨ts ++ bag'.tetrimino_queue, bag'', ?_, ?_, hq'⟩
    · have e : 7 * (k + 1) = 7 * k + 7 := by omega
      rw [e]
      exact pops_append shuffle (7 * k) 7 _ _ _ _ _ hrun hrun7
    · rw [List.length_append, hlen, hq.length_eq, seven_tetriminos_length]
      omega

/-- C15. 7-bag fairness: for a freshly constructed Bag, whatever rearrangement
the shuffle produces each time, and for every `k ≥ 0`, the first `7k + 7` pops
all return a Tetrimino, and those numbered `7k + 1` to `7k + 7` are a
rearrangement of the seven spawned Tetriminos of types O, I, T, L, J, S, Z: each
type exactly once, each in its spawn state. -/
theorem seven_bag_fairness (shuffle : Shuffle) (hperm : ∀ g l, ((shuffle g l).1).Perm l)
    (seed : Nat) (k : Nat) :
    ∃ ts bag', Bag.pops shuffle (7 * k + 7) (Bag.new shuffle seed) = some (ts, bag') ∧
      (ts.drop (7 * k)).Perm seven_tetriminos ∧
      ((ts.drop (7 * k)).map (fun t => t.type)).Perm [.O, .I, .T, .L, .J, .S, .Z] := by
  obtain ⟨ts, bag', hrun, hlen, hq⟩ := pops_batches shuffle hperm seed k
  obtain ⟨bag'', hrun7, _⟩ := pops_batch shuffle hperm bag' hq
  have hdrop : (ts ++ bag'.tetrimino_queue).drop (7 * k) = bag'.tetrimino_queue := by
    rw [← hlen]; exact List.drop_left _ _
  refine ⟨ts ++ bag'.tetrimino_queue, bag'',
    pops_append shuffle (7 * k) 7 _ _ _ _ _ hrun hrun7, ?_, ?_⟩
  · rw [hdrop]; exact hq
  · rw [hdrop]
    exact hq.map (fun t => t.type)

/-- C15 at a concrete input: the reversing shuffle, seed 0, the second batch. -/
theorem seven_bag_fairness_witness :
    (∀ g l, ((reversing_shuffle g l).1).Perm l) ∧
    ∃ ts bag', Bag.pops reversing_shuffle (7 * 1 + 7) (Bag.new reversing_shuffle 0)
        = some (ts, bag') ∧
      (ts.drop (7 * 1)).Perm seven_tetriminos :=
  ⟨fun _ l => List.reverse_perm l,
   let ⟨ts, bag', h1, h2, _⟩ :=
     seven_bag_fairness reversing_shuffle (fun _ l => List.reverse_perm l) 0 1
   ⟨ts, bag', h1, h2⟩⟩

theorem pop_keeps_size (shuffle : Shuffle) (hperm : ∀ g l, ((shuffle g l).1).Perm l)
    (bag : Bag) (h7 : 7 ≤ bag.tetrimino_queue.length) (h13 : bag.tetrimino_queue.length ≤ 13) :
    ∃ next bag', bag.pop shuffle = some (next, bag') ∧
      7 ≤ bag'.tetrimino_queue.length ∧ bag'.tetrimino_queue.length ≤ 13 := by
  obtain ⟨queue, g⟩ := bag
  cases queue with
  | nil => simp at h7
  | cons next rest =>
    simp only [List.length_cons] at h7 h13
    have hnlen : (shuffle g seven_tetriminos).1.length = 7 := by
      rw [(hperm g seven_tetriminos).length_eq, seven_tetriminos_length]
    by_cases hlt : rest.length < 7
    · refine ⟨next, (⟨rest, g⟩ : Bag).extend_queue shuffle, ?_, ?_, ?_⟩
      · simp only [Bag.pop, if_pos hlt]
      · simp only [Bag.extend_queue, List.length_append, hnlen]; omega
      · simp only [Bag.extend_queue, List.length_append, hnlen]; omega
    · refine ⟨next, ⟨rest, g⟩, ?_, ?_, ?_⟩
      · simp only [Bag.pop, if_neg hlt]
      · show 7 ≤ rest.length
        omega
      · show rest.length ≤ 13
        omega

theorem pops_keep_size (shuffle : Shuffle) (hperm : ∀ g l, ((shuffle g l).1).Perm l) (n : Nat) :
    ∀ bag : Bag, 7 ≤ bag.tetrimino_queue.length → bag.tetrimino_queue.length ≤ 13 →
      ∃ ts bag', Bag.pops shuffle n bag = some (ts, bag') ∧ ts.length = n ∧
        7 ≤ bag'.tetrimino_queue.length ∧ bag'.tetrimino_queue.length ≤ 13 := by
  induction n with
  | zero => intro bag h7 h13; exact ⟨[], bag, rfl, rfl, h7, h13⟩
  | succ n ih =>
    intro bag h7 h13
    obtain ⟨next, bag1, hpop, h7', h13'⟩ := pop_keeps_size shuffle hperm bag h7 h13
    obtain ⟨ts, bag2, hrun, hlen, h7'', h13''⟩ := ih bag1 h7' h13'
    refine ⟨next :: ts, bag2, ?_, by simp [hlen], h7'', h13''⟩
    simp only [Bag.pops, hpop, hrun]

/-- C16. Bag never runs dry: whatever rearrangement the shuffle produces, a
freshly constructed Bag holds 7 Tetriminos, and any number `n` of pops in a row
all return a Tetrimino (no pop finds the queue empty) and leave a queue of at
least 7 and at most 13 Tetriminos. -/
theorem bag_never_runs_dry (shuffle : Shuffle) (hperm : ∀ g l, ((shuffle g l).1).Perm l)
    (seed : Nat) (n : Nat) :
    (Bag.new shuffle seed).tetrimino_queue.length = 7 ∧
    ∃ ts bag', Bag.pops shuffle n (Bag.new shuffle seed) = some (ts, bag') ∧ ts.length = n ∧
      7 ≤ bag'.tetrimino_queue.length ∧ bag'.tetrimino_queue.length ≤ 13 := by
  have hnew : (Bag.new shuffle seed).tetrimino_queue.length = 7 := by
    rw [(new_bag_queue shuffle hperm seed).length_eq, seven_tetriminos_length]
  exact ⟨hnew, pops_keep_size shuffle hperm n _ (by omega) (by omega)⟩

/-- C16 at a concrete input: the reversing shuffle, seed 0, eight pops. -/
theorem bag_never_runs_dry_witness :
    (∀ g l, ((reversing_shuffle g l).1).Perm l) ∧
    (Bag.new reversing_shuffle 0).tetrimino_queue.length = 7 ∧
    ∃ ts bag', Bag.pops reversing_shuffle 8 (Bag.new reversing_shuffle 0) = some (ts, bag') ∧
      ts.length = 8 ∧ 7 ≤ bag'.tetrimino_queue.length ∧ bag'.tetrimino_queue.length ≤ 13 :=
  ⟨fun _ l => List.reverse_perm l,
   bag_never_runs_dry reversing_shuffle (fun _ l => List.reverse_perm l) 0 8⟩

/-! ## Drop interval (C17) -/

/-- C17, evaluated on the code where it fails: at level 2 the expression of the
code, `pow(0.8 - ((level-1) * 0.0007), level-1)` on rationals, is `0.7993`; the
claimed formula, with the factor `0.007`, gives `0.793`.  (At level 1 both
give 1.) -/
theorem drop_interval_level_two :
    Game.get_drop_interval ⟨row_major (fun _ _ => .NONE), Tetrimino.spawn .I, idle_bag, 2⟩
      = 7993 / 10000 ∧
    spec_drop_interval 2 = 793 / 1000 ∧
    Game.get_drop_interval ⟨row_major (fun _ _ => .NONE), Tetrimino.spawn .I, idle_bag, 2⟩
      ≠ spec_drop_interval 2 ∧
    Game.get_drop_interval ⟨row_major (fun _ _ => .NONE), Tetrimino.spawn .I, idle_bag, 1⟩
      = spec_drop_interval 1 := by
  unfold Game.get_drop_interval spec_drop_interval
  norm_num

/-! ## Reads outside the grid (C18) -/

theorem check_collision_checked_of_in_grid (p : Point) (f : Playfield)
    (h : in_grid p.row p.col) : check_collision_checked p f = some (check_collision p f) := by
  unfold check_collision_checked check_collision Playfield.lookup Playfield.cell
  simp only [dif_pos h]

theorem check_collision_checked_of_outside (p : Point) (f : Playfield)
    (h : ¬ in_grid p.row p.col) : check_collision_checked p f = none := by
  unfold check_collision_checked Playfield.lookup
  simp only [dif_neg h]

/-- C18, evaluated on the code where it fails: the third test of
`check_collision` reads `playfield[point.row][point.col]` whatever the first two
found.  For the point `(40, 4)` under a piece lying on the floor, for `(19, -1)`
left of the wall and for `(-1, 4)` above the grid, the read is outside the
array: over the reporting lookup the out-of-range result is reached. -/
theorem check_collision_reads_outside_grid :
    (¬ in_grid 40 4 ∧
      check_collision_checked ⟨40, 4⟩ (row_major (fun _ _ => .NONE)) = none) ∧
    (¬ in_grid 19 (-1) ∧
      check_collision_checked ⟨19, -1⟩ (row_major (fun _ _ => .NONE)) = none) ∧
    (¬ in_grid (-1) 4 ∧
      check_collision_checked ⟨-1, 4⟩ (row_major (fun _ _ => .NONE)) = none) := by
  decide

/-! ## Legal position (C20) -/

theorem translate_keeps_free (t : Tetrimino) (d : Point) (f : Playfield)
    (hfree : check_collision_points t.points f = 0) :
    check_collision_points (t.translate d f).2.points f = 0 := by
  by_cases h : ∀ p ∈ t.points.toList, check_collision (p + d) f = 0
  · rw [translate_eq_of_clear t d f h, check_collision_points_eq_zero_iff]
    simp only [Point4.toList_map, List.mem_map]
    rintro q ⟨p, hp, rfl⟩
    exact h p hp
  · have h2 : ∃ p ∈ t.points.toList, check_collision (p + d) f ≠ 0 := by
      push_neg at h; exact h
    rw [translate_eq_of_collision t d f h2]
    exact hfree

theorem process_srs_loop_true (tables : SrsTables) (type : TetriminoType) (c : Point4)
    (f : Playfield) (before after : TetriminoFacing) (l : List Nat) :
    ∀ (offset0 offset : Point),
      process_srs_loop tables type c f before after l offset0 = some (true, offset) →
      clear_at c f offset := by
  induction l with
  | nil => intro offset0 offset h; simp [process_srs_loop] at h
  | cons i l ih =>
    intro offset0 offset h
    simp only [process_srs_loop] at h
    cases hk : calculate_srs_offset tables i type before after with
    | none => rw [hk] at h; simp at h
    | some kick =>
      rw [hk] at h
      simp only [] at h
      by_cases hclear : check_collision_points (c.map (fun p => p + kick)) f = 0
      · rw [if_pos hclear] at h
        simp only [Option.some.injEq, Prod.mk.injEq, true_and] at h
        rw [← h]
        exact hclear
      · rw [if_neg hclear] at h
        exact ih kick offset h

/-- A rotation that returns leaves the piece as it was or leaves points that
`process_srs` found collision-free on its copy of the playfield. -/
theorem rotate_commit_keeps_free_on_copy (tables : SrsTables)
    (storage : Int → Int → TetriminoType) (t : Tetrimino)
    (new_facing : TetriminoFacing) (c : Point4) (f : Playfield) (r : Bool × Tetrimino)
    (h : rotate_commit tables storage t new_facing c f = some r) :
    r.2 = t ∨ check_collision_points r.2.points (f.copy storage) = 0 := by
  unfold rotate_commit at h
  cases hp : process_srs tables t.type c (f.copy storage) t.facing new_facing Point.zero with
  | none => rw [hp] at h; simp at h
  | some res =>
    obtain ⟨clear, offset⟩ := res
    rw [hp] at h
    simp only [] at h
    cases clear with
    | false =>
      simp only [Bool.false_eq_true, if_false, Option.some.injEq] at h
      left; rw [← h]
    | true =>
      simp only [if_true, Option.some.injEq] at h
      right
      rw [← h]
      show clear_at c (f.copy storage) offset
      unfold process_srs at hp
      by_cases hc : check_collision_points c (f.copy storage) = 0
      · rw [if_pos hc] at hp
        simp only [Option.some.injEq, Prod.mk.injEq, true_and] at hp
        rw [← hp]
        unfold clear_at
        rw [Point4.map_add_zero]
        exact hc
      · rw [if_neg hc] at hp
        exact process_srs_loop_true tables t.type c (f.copy storage) t.facing new_facing _ _ _ hp

/-- A rotation that returns and leaves no point above the grid keeps a
collision-free piece collision-free on the playfield. -/
theorem rotate_commit_keeps_free_in_rows (tables : SrsTables)
    (storage : Int → Int → TetriminoType) (t : Tetrimino)
    (new_facing : TetriminoFacing) (c : Point4) (f : Playfield)
    (hfree : check_collision_points t.points f = 0) (r : Bool × Tetrimino)
    (h : rotate_commit tables storage t new_facing c f = some r)
    (hrows : ∀ p ∈ r.2.points.toList, 0 ≤ p.row) :
    check_collision_points r.2.points f = 0 := by
  rcases rotate_commit_keeps_free_on_copy tables storage t new_facing c f r h with e | hc
  · rw [e]; exact hfree
  · exact (check_collision_points_copy _ f storage hrows).1 hc

theorem process_srs_returns (tables : SrsTables) (type : TetriminoType) (c : Point4)
    (f : Playfield) (before after : TetriminoFacing) (offset : Point)
    (htype : has_kick_table type) :
    ∃ r, process_srs tables type c f before after offset = some r := by
  by_cases hc : check_collision_points c f = 0
  · exact ⟨_, by unfold process_srs; rw [if_pos hc]⟩
  · rw [process_srs_eq tables type htype c f before after offset hc]
    split_ifs <;> exact ⟨_, rfl⟩

theorem rotate_commit_returns (tables : SrsTables) (storage : Int → Int → TetriminoType)
    (t : Tetrimino) (new_facing : TetriminoFacing) (c : Point4) (f : Playfield)
    (htype : has_kick_table t.type) :
    ∃ r, rotate_commit tables storage t new_facing c f = some r := by
  obtain ⟨⟨clear, offset⟩, hr⟩ :=
    process_srs_returns tables t.type c (f.copy storage) t.facing new_facing Point.zero htype
  unfold rotate_commit
  rw [hr]
  cases clear <;> simp

theorem has_kick_table_of_ne (type : TetriminoType) (hO : type ≠ .O) (hN : type ≠ .NONE) :
    has_kick_table type := by
  unfold has_kick_table
  cases type <;> simp at hO hN ⊢

/-- What holds of the legal position on the code: `translate` and `hard_drop`
keep a collision-free piece collision-free; a rotation returns for every piece
type but `NONE`, and keeps the piece collision-free when it leaves no point
above the grid. -/
theorem legal_position_kept_in_rows (tables : SrsTables)
    (storage : Int → Int → TetriminoType) (t : Tetrimino) (f : Playfield)
    (hfree : check_collision_points t.points f = 0) :
    (∀ d, check_collision_points (t.translate d f).2.points f = 0) ∧
    check_collision_points (t.hard_drop f).2.points f = 0 ∧
    (∀ r, t.rotate_cw tables storage f = some r → (∀ p ∈ r.2.points.toList, 0 ≤ p.row) →
      check_collision_points r.2.points f = 0) ∧
    (∀ r, t.rotate_ccw tables storage f = some r → (∀ p ∈ r.2.points.toList, 0 ≤ p.row) →
      check_collision_points r.2.points f = 0) ∧
    (t.type ≠ TetriminoType.NONE →
      (∃ r, t.rotate_cw tables storage f = some r) ∧
      ∃ r, t.rotate_ccw tables storage f = some r) := by
  refine ⟨fun d => translate_keeps_free t d f hfree, translate_keeps_free t _ f hfree,
    ?_, ?_, ?_⟩
  · intro r hr hrows
    unfold Tetrimino.rotate_cw at hr
    by_cases hO : t.type = TetriminoType.O
    · rw [if_pos hO, Option.some.injEq] at hr
      rw [← hr]; exact hfree
    · rw [if_neg hO] at hr
      exact rotate_commit_keeps_free_in_rows tables storage t _ _ f hfree r hr hrows
  · intro r hr hrows
    unfold Tetrimino.rotate_ccw at hr
    by_cases hO : t.type = TetriminoType.O
    · rw [if_pos hO, Option.some.injEq] at hr
      rw [← hr]; exact hfree
    · rw [if_neg hO] at hr
      exact rotate_commit_keeps_free_in_rows tables storage t _ _ f hfree r hr hrows
  · intro hN
    unfold Tetrimino.rotate_cw Tetrimino.rotate_ccw
    by_cases hO : t.type = TetriminoType.O
    · rw [if_pos hO, if_pos hO]
      exact ⟨⟨_, rfl⟩, ⟨_, rfl⟩⟩
    · rw [if_neg hO, if_neg hO]
      exact ⟨rotate_commit_returns tables storage t _ _ f (has_kick_table_of_ne _ hO hN),
        rotate_commit_returns tables storage t _ _ f (has_kick_table_of_ne _ hO hN)⟩

end tetris
